import Mathlib

/-!
Verification of the interaction-discovery engine of the Starknet contract
explorer (`starknetClient`).  The TypeScript source is shallowly embedded:
JS numbers that hold timestamps, fees and delays become `Int`; block
heights, pages and attempt counters become `Nat`; values that may be
`undefined`/`null` become `Option`; RPC calls that may throw are modelled
with `Option` results (`none` = the call threw).  JS truthiness on strings
(`''` is falsy) is modelled explicitly.
-/

/-- The two supported networks (`type Network`). -/
inductive Network where
  | mainnet
  | sepolia
deriving DecidableEq, Repr

/-- Transaction kinds (`type TxType`). -/
inductive TxType where
  | INVOKE
  | DECLARE
  | DEPLOY
  | L1_HANDLER
deriving DecidableEq, Repr

/-- Transaction statuses (`type TxStatus`). -/
inductive TxStatus where
  | ACCEPTED
  | REJECTED
deriving DecidableEq, Repr

/-- One output row (`interface TxRow`).  `toAddr` embeds the source field
`to` (a Lean keyword).  `entrypoint` is optional as in the source. -/
structure TxRow where
  timestamp : Int
  txHash : String
  type : TxType
  entrypoint : Option String
  caller : String
  toAddr : String
  fee : Int
  status : TxStatus
  network : Network
deriving DecidableEq, Repr

/-- A requested kind filter: the literal `ALL` or a specific kind. -/
inductive TypeFilter where
  | ALL
  | kind (t : TxType)
deriving DecidableEq, Repr

/-- A requested status filter: the literal `ALL` or a specific status. -/
inductive StatusFilter where
  | ALL
  | val (s : TxStatus)
deriving DecidableEq, Repr

/-- The user filter set (`FetchParams.filters`), every member optional. -/
structure Filters where
  type : Option TypeFilter := none
  method : Option String := none
  status : Option StatusFilter := none
  minFee : Option Int := none
  maxFee : Option Int := none
deriving DecidableEq, Repr

/-- The discovery-run parameters (`interface FetchParams`).  `fromTs`/`toTs`
embed the optional `from`/`to` time bounds (seconds); `from` is a Lean
keyword. -/
structure FetchParams where
  address : String
  network : Network
  fromTs : Option Int := none
  toTs : Option Int := none
  page : Nat
  pageSize : Nat
  filters : Filters
deriving DecidableEq, Repr

/-- JS truthiness for an optional string: `undefined` and `''` are falsy.
Used to embed `a || b` chains over string-valued fields. -/
def truthyStr (o : Option String) : Option String :=
  match o with
  | none => none
  | some s => if s = "" then none else some s

/-- Left-biased JS `||` over optional strings with `''` falsy. -/
def jsOrStr (a b : Option String) : Option String :=
  match truthyStr a with
  | some s => some s
  | none => truthyStr b

/-- Model of `needle`-is-a-prefix-of-`hay` over character lists, embedding
the prefix test underlying `String.prototype.startsWith`. -/
def charListLeads : List Char → List Char → Bool
  | [], _ => true
  | _ :: _, [] => false
  | a :: as, b :: bs => a == b && charListLeads as bs

/-- Model of `String.prototype.includes`: scans `hay` for `needle`. -/
def charListIncludes (needle : List Char) : List Char → Bool
  | [] => needle.isEmpty
  | c :: rest => charListLeads needle (c :: rest) || charListIncludes needle rest

/-- `hay.includes(needle)` on Lean strings. -/
def strIncludes (hay needle : String) : Bool :=
  charListIncludes needle.toList hay.toList

/-- The literal `'0x'`. -/
def STR_0X : String := "0x"

/-- The literal `'429'`. -/
def STR_429 : String := "429"

/-- The literal `'rate limit'`. -/
def STR_RATE_LIMIT : String := "rate limit"

/-- The empty string literal. -/
def EMPTY_STR : String := ""

/-- The literal `'0x0'` (default caller). -/
def ZERO_ADDR : String := "0x0"

/-- The literal `'REVERTED'`. -/
def REVERTED_STATUS : String := "REVERTED"

/-- `value.startsWith('0x')`. -/
def startsWith0x (s : String) : Bool :=
  charListLeads STR_0X.toList s.toList

/-- `String.prototype.toLowerCase` over the character list (ASCII). -/
def toLowerStr (s : String) : String := String.mk (s.toList.map Char.toLower)

/-- `String.prototype.toUpperCase` over the character list (ASCII). -/
def toUpperStr (s : String) : String := String.mk (s.toList.map Char.toUpper)

/-- `DEFAULT_MAX_TRACE_LOOKUPS` from the source. -/
def DEFAULT_MAX_TRACE_LOOKUPS : Nat := 200

/-- `MAX_RPC_RETRIES` from the source. -/
def MAX_RPC_RETRIES : Nat := 4

/-- `BASE_RETRY_DELAY_MS` from the source. -/
def BASE_RETRY_DELAY_MS : Int := 500

/-- `MAX_RETRY_DELAY_MS` from the source. -/
def MAX_RETRY_DELAY_MS : Int := 10000

/-- The value of a `retry-after` response header as seen by
`parseRetryAfterHeader`, split by the JS dynamic cases of the source:
absent (`null`/`undefined`), a finite JS number, a (nonempty) string that
`Number(...)` parses to a finite number of seconds, a (nonempty) string
that `Date.parse` reads as an HTTP-date (given in epoch milliseconds), or
anything else (including the empty string), which parses to `undefined`.
An array value is read through its first element in the source and is
covered by the string cases. -/
inductive RetryAfterValue where
  | absent
  | numeric (seconds : Int)
  | numericString (seconds : Int)
  | dateString (epochMs : Int)
  | unparseable
deriving DecidableEq, Repr

/-- An RPC failure as inspected by `isRateLimitError`/`getRetryDelayMs`.
`status` merges `error.response?.status ?? error.status`; `code` models a
numeric (or numeric-string, after `Number(...)`) `error.code`;
`retryAfter` merges `headers['retry-after'] ?? headers['Retry-After']`. -/
structure RpcError where
  status : Option Int := none
  code : Option Int := none
  message : String := ""
  retryAfter : RetryAfterValue := RetryAfterValue.absent
deriving DecidableEq, Repr

/-- `parseRetryAfterHeader` (source lines 202-223): a numeric value (or a
numeric string) gives `Math.max(0, v) * 1000` milliseconds; an HTTP-date
gives the time left until it (clamped at 0), measured from `now`;
everything else gives `undefined`. -/
def parseRetryAfterHeader (now : Int) : RetryAfterValue → Option Int
  | RetryAfterValue.absent => none
  | RetryAfterValue.numeric s => some (max 0 s * 1000)
  | RetryAfterValue.numericString s => some (max 0 s * 1000)
  | RetryAfterValue.dateString d => some (if 0 < d - now then d - now else 0)
  | RetryAfterValue.unparseable => none

/-- `getRetryDelayMs` (source lines 225-232): prefer the parsed
`retry-after` hint; otherwise `min(BASE_RETRY_DELAY_MS * 2 ** (attempt - 1),
MAX_RETRY_DELAY_MS)`. -/
def getRetryDelayMs (now : Int) (e : RpcError) (attempt : Nat) : Int :=
  match parseRetryAfterHeader now e.retryAfter with
  | some ms => ms
  | none => min (BASE_RETRY_DELAY_MS * 2 ^ (attempt - 1)) MAX_RETRY_DELAY_MS

/-- `isRateLimitError` (source lines 234-242): status 429, numeric code
429, or a message containing `429` or (case-insensitively) `rate limit`. -/
def isRateLimitError (e : RpcError) : Bool :=
  e.status == some 429 || e.code == some 429 ||
    strIncludes e.message STR_429 || strIncludes (toLowerStr e.message) STR_RATE_LIMIT

/-- Failure of a wrapped call: an RPC error propagated out of
`callRpcWithRetry`, or the unreachable `RPC retry exhausted` error thrown
after the loop. -/
inductive RetryError where
  | rpc (e : RpcError)
  | exhausted
deriving DecidableEq, Repr

/-- One retry run's loop (`callRpcWithRetry`, source lines 250-274),
unrolled from attempt number `attempt`.  `outcomes k` is what the wrapped
factory does on its `k`-th invocation.  Returns the final result and the
list of back-off sleeps performed (in milliseconds), in order.  Wall-clock
time is modelled as the constant `now` (it only feeds date-based retry
hints). -/
def retryLoop {A : Type} (now : Int) (outcomes : Nat → Except RpcError A)
    (maxAttempts : Nat) (attempt : Nat) : Except RetryError A × List Int :=
  if attempt > maxAttempts then (Except.error RetryError.exhausted, [])
  else
    match outcomes attempt with
    | Except.ok a => (Except.ok a, [])
    | Except.error e =>
      if ¬ isRateLimitError e then (Except.error (RetryError.rpc e), [])
      else if attempt ≥ maxAttempts then (Except.error (RetryError.rpc e), [])
      else
        let d := getRetryDelayMs now e attempt
        let rest := retryLoop now outcomes maxAttempts (attempt + 1)
        (rest.1, d :: rest.2)
termination_by maxAttempts + 1 - attempt

/-- `callRpcWithRetry` (source lines 250-274): run the loop from attempt 1. -/
def callRpcWithRetry {A : Type} (now : Int) (outcomes : Nat → Except RpcError A)
    (maxAttempts : Nat) : Except RetryError A × List Int :=
  retryLoop now outcomes maxAttempts 1

/-- Follows the spec's words (for comparing `callRpcWithRetry` to the
claimed stopping rule): the attempt at which retrying stops, namely the
first attempt in `[k, maxAttempts]` that succeeds or fails with a
non-throttling error, and `maxAttempts` if all attempts up to it throttle. -/
def retryStopAttemptAux {A : Type} (outcomes : Nat → Except RpcError A)
    (maxAttempts : Nat) (k : Nat) : Nat :=
  if k ≥ maxAttempts then maxAttempts
  else
    match outcomes k with
    | Except.ok _ => k
    | Except.error e =>
      if isRateLimitError e then retryStopAttemptAux outcomes maxAttempts (k + 1)
      else k
termination_by maxAttempts - k

/-- The stopping attempt of a whole run, counted from attempt 1. -/
def retryStopAttempt {A : Type} (outcomes : Nat → Except RpcError A)
    (maxAttempts : Nat) : Nat :=
  retryStopAttemptAux outcomes maxAttempts 1

/-- Hex digit value, as accepted by `BigInt('0x…')`. -/
def hexDigitVal (c : Char) : Option Nat :=
  if ('0' ≤ c ∧ c ≤ '9') then some (c.toNat - '0'.toNat)
  else if ('a' ≤ c ∧ c ≤ 'f') then some (c.toNat - 'a'.toNat + 10)
  else if ('A' ≤ c ∧ c ≤ 'F') then some (c.toNat - 'A'.toNat + 10)
  else none

/-- Fold a digit list in base `b`, failing on the first bad digit. -/
def parseDigitsAux (digit : Char → Option Nat) (b : Nat) : List Char → Nat → Option Nat
  | [], acc => some acc
  | c :: rest, acc =>
    match digit c with
    | some d => parseDigitsAux digit b rest (acc * b + d)
    | none => none

/-- Model of `BigInt(string)` as used on node fee amounts: `0x`-prefixed
hexadecimal, or plain decimal digits; the empty string is `0n`; anything
else throws (signs and exotic JS forms are not modelled — node amount
strings are hexadecimal quantities). -/
def parseBigIntStr (s : String) : Option Int :=
  if s = "" then some 0
  else if startsWith0x s then
    match s.toList.drop 2 with
    | [] => none
    | ds => (parseDigitsAux hexDigitVal 16 ds 0).map Int.ofNat
  else
    match s.toList with
    | ds => (parseDigitsAux (fun c => if '0' ≤ c ∧ c ≤ '9' then some (c.toNat - '0'.toNat) else none) 10 ds 0).map Int.ofNat

/-- `toFee` (source lines 322-329): 0 when the amount is absent or falsy,
else `Number(BigInt(amount))`, and 0 when parsing throws. -/
def toFee (amount : Option String) : Int :=
  match amount with
  | none => 0
  | some s =>
    if s = "" then 0
    else
      match parseBigIntStr s with
      | some v => v
      | none => 0

/-- `toTxType` (source lines 314-320): uppercase the value (default
`INVOKE` for absent/falsy) and normalize to one of the four kinds. -/
def toTxType (value : Option String) : TxType :=
  let normalized :=
    toUpperStr
      (match truthyStr value with
       | none => "INVOKE"
       | some s => s)
  if normalized = "DECLARE" then TxType.DECLARE
  else if normalized = "DEPLOY" ∨ normalized = "DEPLOY_ACCOUNT" then TxType.DEPLOY
  else if normalized = "L1_HANDLER" then TxType.L1_HANDLER
  else TxType.INVOKE

/-- The fixed placeholder token an entrypoint-less row presents to the
method filter (`row.entrypoint || '—'`). -/
def METHOD_PLACEHOLDER : String := "—"

/-- `row.entrypoint || '—'`: the row's entrypoint, with absent or empty
entrypoints replaced by the placeholder token. -/
def entrypointOrPlaceholder (e : Option String) : String :=
  match truthyStr e with
  | some s => s
  | none => METHOD_PLACEHOLDER

/-- `matchesFilters` (source lines 331-338).  A filter member participates
only when present (and, for `method`, nonempty — JS truthiness). -/
def matchesFilters (p : FetchParams) (row : TxRow) : Bool :=
  (match p.filters.type with
   | none => true
   | some TypeFilter.ALL => true
   | some (TypeFilter.kind t) => row.type == t) &&
  (match p.filters.method with
   | none => true
   | some m => if m = "" then true else entrypointOrPlaceholder row.entrypoint == m) &&
  (match p.filters.status with
   | none => true
   | some StatusFilter.ALL => true
   | some (StatusFilter.val s) => row.status == s) &&
  (match p.filters.minFee with
   | none => true
   | some f => decide (f ≤ row.fee)) &&
  (match p.filters.maxFee with
   | none => true
   | some f => decide (row.fee ≤ f))

/-- The scanners' accumulation state: `allRows`, the `seenTx` set (as a
list of hashes), the count of rows passing the filters, and the
`reachedLimit` flag. -/
structure ScanState where
  allRows : List TxRow
  seenTx : List String
  matchingRowCount : Nat
  reachedLimit : Bool
deriving DecidableEq, Repr

/-- The empty accumulation state at the start of a run. -/
def initScanState : ScanState :=
  { allRows := [], seenTx := [], matchingRowCount := 0, reachedLimit := false }

/-- `row.timestamp >= p.from` guard of `addRow` (true when `from` unset). -/
def fromBoundOk (p : FetchParams) (row : TxRow) : Bool :=
  match p.fromTs with
  | none => true
  | some f => decide (f ≤ row.timestamp)

/-- `row.timestamp <= p.to` guard of `addRow` (true when `to` unset). -/
def toBoundOk (p : FetchParams) (row : TxRow) : Bool :=
  match p.toTs with
  | none => true
  | some t => decide (row.timestamp ≤ t)

/-- `addRow` (source lines 418-435): first-write-wins accumulation keyed
by transaction hash.  Returns the new state and whether the row was
accepted.  `limit` is `p.page * p.pageSize`. -/
def addRow (p : FetchParams) (limit : Nat) (s : ScanState) (row : TxRow) : ScanState × Bool :=
  if s.seenTx.contains row.txHash then (s, false)
  else
    let seenTx := row.txHash :: s.seenTx
    let allRows := s.allRows ++ [row]
    let rowMatches := matchesFilters p row && fromBoundOk p row && toBoundOk p row
    let matchingRowCount := if rowMatches then s.matchingRowCount + 1 else s.matchingRowCount
    let reachedLimit :=
      if rowMatches ∧ 0 < limit ∧ limit ≤ matchingRowCount then true else s.reachedLimit
    ({ allRows := allRows, seenTx := seenTx,
       matchingRowCount := matchingRowCount, reachedLimit := reachedLimit }, true)

/-- The final-assembly filter (source lines 657-662): the user filters
plus the inclusive time bounds. -/
def finalFilteredRows (p : FetchParams) (allRows : List TxRow) : List TxRow :=
  allRows.filter (fun row => matchesFilters p row && fromBoundOk p row && toBoundOk p row)

/-- `rows.sort((a, b) => b.timestamp - a.timestamp)`: stable sort by
descending timestamp. -/
def sortByTimestampDesc (l : List TxRow) : List TxRow :=
  l.mergeSort (fun a b => decide (b.timestamp ≤ a.timestamp))

/-- The returned page (source lines 664-667): sort the filtered rows by
descending timestamp and slice `[(page-1)*pageSize, page*pageSize)`. -/
def pagedRows (p : FetchParams) (allRows : List TxRow) : List TxRow :=
  ((sortByTimestampDesc (finalFilteredRows p allRows)).drop ((p.page - 1) * p.pageSize)).take p.pageSize

/-- The two directions of `findBoundaryBlock`. -/
inductive Direction where
  | fromDir
  | toDir
deriving DecidableEq, Repr

/-- The binary-search loop of `findBoundaryBlock` (source lines 371-394),
over a total height-to-timestamp map `ts`.  `low`/`high` are JS numbers
(`high` reaches -1), hence `Int`; `mid = Math.floor((low + high) / 2)` is
Euclidean division, which on the reachable nonnegative sums is exactly
`Math.floor`. -/
def boundarySearch (ts : Nat → Int) (dir : Direction) (target : Int)
    (low high : Int) (result : Nat) : Nat :=
  if _h : low ≤ high then
    let mid := (low + high) / 2
    let timestamp := ts mid.toNat
    match dir with
    | Direction.fromDir =>
      if target ≤ timestamp then boundarySearch ts dir target low (mid - 1) mid.toNat
      else boundarySearch ts dir target (mid + 1) high result
    | Direction.toDir =>
      if timestamp ≤ target then boundarySearch ts dir target (mid + 1) high mid.toNat
      else boundarySearch ts dir target low (mid - 1) result
  else result
termination_by (high + 1 - low).toNat
decreasing_by
  all_goals omega

/-- `findBoundaryBlock` (source lines 355-397) over a total timestamp map:
an absent target resolves to the extreme height for its direction; early
returns compare the target with the earliest and latest known timestamps;
otherwise binary search over `[0, latestBlockNumber]`. -/
def findBoundaryBlock (ts : Nat → Int) (latestBlockNumber : Nat)
    (earliestTimestamp latestTimestamp : Int) (target : Option Int)
    (dir : Direction) : Option Nat :=
  match target with
  | none =>
    some (match dir with
          | Direction.fromDir => 0
          | Direction.toDir => latestBlockNumber)
  | some t =>
    match dir with
    | Direction.fromDir =>
      if latestTimestamp < t then none
      else if t ≤ earliestTimestamp then some 0
      else some (boundarySearch ts Direction.fromDir t 0 latestBlockNumber latestBlockNumber)
    | Direction.toDir =>
      if t < earliestTimestamp then none
      else if latestTimestamp ≤ t then some latestBlockNumber
      else some (boundarySearch ts Direction.toDir t 0 latestBlockNumber 0)

/-- C7: the retry delay equals the server hint when present and parseable
(numeric seconds times 1000, or the time left until an HTTP-date, clamped
at zero), otherwise `min(BASE_RETRY_DELAY_MS * 2 ^ (attempt - 1),
MAX_RETRY_DELAY_MS)`; the delay is never negative. -/
theorem getRetryDelayMs_spec (now : Int) (e : RpcError) (n : Nat) (_hn : 1 ≤ n) :
    getRetryDelayMs now e n =
      (match e.retryAfter with
       | RetryAfterValue.numeric s => max 0 s * 1000
       | RetryAfterValue.numericString s => max 0 s * 1000
       | RetryAfterValue.dateString d => max 0 (d - now)
       | RetryAfterValue.absent => min (BASE_RETRY_DELAY_MS * 2 ^ (n - 1)) MAX_RETRY_DELAY_MS
       | RetryAfterValue.unparseable => min (BASE_RETRY_DELAY_MS * 2 ^ (n - 1)) MAX_RETRY_DELAY_MS) ∧
    0 ≤ getRetryDelayMs now e n := by
  have hpow : (0 : Int) ≤ BASE_RETRY_DELAY_MS * 2 ^ (n - 1) := by
    unfold BASE_RETRY_DELAY_MS; positivity
  have hmin : (0 : Int) ≤ min (BASE_RETRY_DELAY_MS * 2 ^ (n - 1)) MAX_RETRY_DELAY_MS := by
    have hM : (0 : Int) ≤ MAX_RETRY_DELAY_MS := by norm_num [MAX_RETRY_DELAY_MS]
    exact le_min hpow hM
  obtain ⟨st, cd, msg, ra⟩ := e
  cases ra with
  | absent => exact ⟨rfl, hmin⟩
  | numeric s => exact ⟨rfl, by simp only [getRetryDelayMs, parseRetryAfterHeader]; omega⟩
  | numericString s => exact ⟨rfl, by simp only [getRetryDelayMs, parseRetryAfterHeader]; omega⟩
  | dateString d =>
    constructor
    · simp only [getRetryDelayMs, parseRetryAfterHeader]
      split <;> omega
    · simp only [getRetryDelayMs, parseRetryAfterHeader]
      split <;> omega
  | unparseable => exact ⟨rfl, hmin⟩

/-- Witness for C7 at a concrete input. -/
theorem getRetryDelayMs_spec_witness :
    1 ≤ 2 ∧
    (getRetryDelayMs 0 { retryAfter := RetryAfterValue.absent } 2 =
      (match ({ retryAfter := RetryAfterValue.absent } : RpcError).retryAfter with
       | RetryAfterValue.numeric s => max 0 s * 1000
       | RetryAfterValue.numericString s => max 0 s * 1000
       | RetryAfterValue.dateString d => max 0 (d - 0)
       | RetryAfterValue.absent => min (BASE_RETRY_DELAY_MS * 2 ^ (2 - 1)) MAX_RETRY_DELAY_MS
       | RetryAfterValue.unparseable => min (BASE_RETRY_DELAY_MS * 2 ^ (2 - 1)) MAX_RETRY_DELAY_MS) ∧
     0 ≤ getRetryDelayMs 0 { retryAfter := RetryAfterValue.absent } 2) :=
  ⟨by decide, getRetryDelayMs_spec 0 { retryAfter := RetryAfterValue.absent } 2 (by decide)⟩

/-- The back-off delay slept before re-invoking attempt `j + 1`, as a
function of the failure of attempt `j` (0 when attempt `j` succeeded — that
case never occurs before the stopping attempt). -/
def retryDelayAt {A : Type} (now : Int) (outcomes : Nat → Except RpcError A) (j : Nat) : Int :=
  match outcomes j with
  | Except.error e => getRetryDelayMs now e j
  | Except.ok _ => 0

theorem retryStopAttemptAux_ge {A : Type} (outcomes : Nat → Except RpcError A)
    (maxAttempts : Nat) :
    ∀ n k, maxAttempts - k = n → k ≤ maxAttempts →
      k ≤ retryStopAttemptAux outcomes maxAttempts k := by
  intro n
  induction n with
  | zero =>
    intro k hn hk
    rw [retryStopAttemptAux.eq_def]
    have hge : k ≥ maxAttempts := by omega
    rw [if_pos hge]
    omega
  | succ m ih =>
    intro k hn hk
    rw [retryStopAttemptAux.eq_def]
    have hge : ¬ k ≥ maxAttempts := by omega
    rw [if_neg hge]
    cases houtk : outcomes k with
    | ok a => dsimp only; omega
    | error e =>
      dsimp only
      by_cases hr : isRateLimitError e = true
      · rw [if_pos hr]
        have := ih (k + 1) (by omega) (by omega)
        omega
      · rw [if_neg hr]

theorem retryStopAttemptAux_le {A : Type} (outcomes : Nat → Except RpcError A)
    (maxAttempts : Nat) :
    ∀ n k, maxAttempts - k = n →
      retryStopAttemptAux outcomes maxAttempts k ≤ maxAttempts := by
  intro n
  induction n with
  | zero =>
    intro k hn
    rw [retryStopAttemptAux.eq_def]
    have hge : k ≥ maxAttempts := by omega
    rw [if_pos hge]
  | succ m ih =>
    intro k hn
    rw [retryStopAttemptAux.eq_def]
    have hge : ¬ k ≥ maxAttempts := by omega
    rw [if_neg hge]
    cases houtk : outcomes k with
    | ok a => dsimp only; omega
    | error e =>
      dsimp only
      by_cases hr : isRateLimitError e = true
      · rw [if_pos hr]
        exact ih (k + 1) (by omega)
      · rw [if_neg hr]
        omega

theorem retryStopAttemptAux_before {A : Type} (outcomes : Nat → Except RpcError A)
    (maxAttempts : Nat) :
    ∀ n k, maxAttempts - k = n →
      ∀ j, k ≤ j → j < retryStopAttemptAux outcomes maxAttempts k →
        ∃ e, outcomes j = Except.error e ∧ isRateLimitError e = true := by
  intro n
  induction n with
  | zero =>
    intro k hn j hkj hjs
    rw [retryStopAttemptAux.eq_def] at hjs
    have hge : k ≥ maxAttempts := by omega
    rw [if_pos hge] at hjs
    omega
  | succ m ih =>
    intro k hn j hkj hjs
    rw [retryStopAttemptAux.eq_def] at hjs
    have hge : ¬ k ≥ maxAttempts := by omega
    rw [if_neg hge] at hjs
    cases houtk : outcomes k with
    | ok a => rw [houtk] at hjs; dsimp only at hjs; omega
    | error e =>
      rw [houtk] at hjs
      dsimp only at hjs
      by_cases hr : isRateLimitError e = true
      · rw [if_pos hr] at hjs
        rcases Nat.eq_or_lt_of_le hkj with heq | hlt
        · exact ⟨e, heq ▸ houtk, hr⟩
        · exact ih (k + 1) (by omega) j (by omega) hjs
      · rw [if_neg hr] at hjs
        omega

theorem retryStopAttemptAux_at {A : Type} (outcomes : Nat → Except RpcError A)
    (maxAttempts : Nat) :
    ∀ n k, maxAttempts - k = n →
      retryStopAttemptAux outcomes maxAttempts k < maxAttempts →
      ∀ e, outcomes (retryStopAttemptAux outcomes maxAttempts k) = Except.error e →
        isRateLimitError e = false := by
  intro n
  induction n with
  | zero =>
    intro k hn hlt e he
    rw [retryStopAttemptAux.eq_def] at hlt
    have hge : k ≥ maxAttempts := by omega
    rw [if_pos hge] at hlt
    omega
  | succ m ih =>
    intro k hn hlt e he
    rw [retryStopAttemptAux.eq_def] at hlt he
    have hge : ¬ k ≥ maxAttempts := by omega
    rw [if_neg hge] at hlt he
    cases houtk : outcomes k with
    | ok a =>
      rw [houtk] at hlt he
      dsimp only at hlt he
      rw [houtk] at he
      exact absurd he (by simp)
    | error e2 =>
      rw [houtk] at hlt he
      dsimp only at hlt he
      by_cases hr : isRateLimitError e2 = true
      · rw [if_pos hr] at hlt he
        exact ih (k + 1) (by omega) hlt e he
      · rw [if_neg hr] at hlt he
        rw [houtk] at he
        cases he
        simpa using hr

/-- How `callRpcWithRetry` surfaces the stopping attempt's outcome. -/
def rpcOutcomeToRetryResult {A : Type} (o : Except RpcError A) : Except RetryError A :=
  match o with
  | Except.ok a => Except.ok a
  | Except.error e => Except.error (RetryError.rpc e)

theorem retryLoop_eq_stop {A : Type} (now : Int) (outcomes : Nat → Except RpcError A)
    (maxAttempts : Nat) :
    ∀ n k, maxAttempts - k = n → 1 ≤ k → k ≤ maxAttempts →
      retryLoop now outcomes maxAttempts k =
        (rpcOutcomeToRetryResult (outcomes (retryStopAttemptAux outcomes maxAttempts k)),
         (List.range' k (retryStopAttemptAux outcomes maxAttempts k - k)).map
           (retryDelayAt now outcomes)) := by
  intro n
  induction n with
  | zero =>
    intro k hn h1 hk
    have hkeq : k = maxAttempts := by omega
    have hstop : retryStopAttemptAux outcomes maxAttempts k = k := by
      rw [retryStopAttemptAux.eq_def]
      rw [if_pos (by omega)]
      omega
    rw [retryLoop.eq_def, hstop]
    rw [if_neg (by omega)]
    cases houtk : outcomes k with
    | ok a => simp [rpcOutcomeToRetryResult]
    | error e =>
      dsimp only
      by_cases hr : isRateLimitError e = true
      · rw [if_neg (by simp [hr]), if_pos (by omega)]
        simp [rpcOutcomeToRetryResult]
      · rw [if_pos (by simp [hr])]
        simp [rpcOutcomeToRetryResult]
  | succ m ih =>
    intro k hn h1 hk
    have hge : ¬ k ≥ maxAttempts := by omega
    rw [retryLoop.eq_def, retryStopAttemptAux.eq_def]
    rw [if_neg (by omega : ¬ k > maxAttempts), if_neg hge]
    cases houtk : outcomes k with
    | ok a => simp [houtk, rpcOutcomeToRetryResult]
    | error e =>
      dsimp only
      by_cases hr : isRateLimitError e = true
      · rw [if_neg (by simp [hr]), if_neg (by omega : ¬ k ≥ maxAttempts), if_pos hr]
        rw [ih (k + 1) (by omega) (by omega) (by omega)]
        have hge1 : k + 1 ≤ retryStopAttemptAux outcomes maxAttempts (k + 1) :=
          retryStopAttemptAux_ge outcomes maxAttempts (maxAttempts - (k + 1)) (k + 1) rfl (by omega)
        have hrange : retryStopAttemptAux outcomes maxAttempts (k + 1) - k =
            (retryStopAttemptAux outcomes maxAttempts (k + 1) - (k + 1)) + 1 := by omega
        rw [hrange, List.range'_succ, List.map_cons]
        have hdel : retryDelayAt now outcomes k = getRetryDelayMs now e k := by
          rw [retryDelayAt, houtk]
        rw [hdel]
      · rw [if_pos (by simp [hr]), if_neg hr]
        simp [houtk, rpcOutcomeToRetryResult]

/-- C6 (amended): `callRpcWithRetry` re-invokes the call only on recognized
throttling failures (status 429, numeric code 429, or a message containing
`429` or `rate limit`): every attempt before the stopping attempt failed
with such an error; a non-throttling failure (or a success) stops the run
at once; otherwise retrying stops exactly when the attempt count reaches
the configured maximum.  There is no elapsed-time budget: the full
back-off delay is slept before every retry, unconditionally — the sleeps
performed are exactly the delays of all attempts before the stopping one. -/
theorem callRpcWithRetry_spec {A : Type} (now : Int) (outcomes : Nat → Except RpcError A)
    (maxAttempts : Nat) (h1 : 1 ≤ maxAttempts) :
    callRpcWithRetry now outcomes maxAttempts =
      (rpcOutcomeToRetryResult (outcomes (retryStopAttempt outcomes maxAttempts)),
       (List.range' 1 (retryStopAttempt outcomes maxAttempts - 1)).map
         (retryDelayAt now outcomes)) ∧
    (∀ j, 1 ≤ j → j < retryStopAttempt outcomes maxAttempts →
      ∃ e, outcomes j = Except.error e ∧ isRateLimitError e = true) ∧
    (∀ e, outcomes (retryStopAttempt outcomes maxAttempts) = Except.error e →
      isRateLimitError e = false ∨ retryStopAttempt outcomes maxAttempts = maxAttempts) ∧
    1 ≤ retryStopAttempt outcomes maxAttempts ∧
    retryStopAttempt outcomes maxAttempts ≤ maxAttempts := by
  simp only [retryStopAttempt, callRpcWithRetry]
  refine ⟨?_, ?_, ?_, ?_, ?_⟩
  · exact retryLoop_eq_stop now outcomes maxAttempts (maxAttempts - 1) 1 rfl le_rfl h1
  · intro j hj hjs
    exact retryStopAttemptAux_before outcomes maxAttempts (maxAttempts - 1) 1 rfl j hj hjs
  · intro e he
    by_cases hstop : retryStopAttemptAux outcomes maxAttempts 1 = maxAttempts
    · exact Or.inr hstop
    · refine Or.inl ?_
      have hle : retryStopAttemptAux outcomes maxAttempts 1 ≤ maxAttempts :=
        retryStopAttemptAux_le outcomes maxAttempts (maxAttempts - 1) 1 rfl
      exact retryStopAttemptAux_at outcomes maxAttempts (maxAttempts - 1) 1 rfl
        (by omega) e he
  · exact retryStopAttemptAux_ge outcomes maxAttempts (maxAttempts - 1) 1 rfl h1
  · exact retryStopAttemptAux_le outcomes maxAttempts (maxAttempts - 1) 1 rfl

/-- Outcome sequence for the C6 witness: attempt 1 throttles, attempt 2
succeeds. -/
def retryWitnessOutcomes : Nat → Except RpcError Unit := fun k =>
  if k = 1 then Except.error { status := some 429 } else Except.ok ()

/-- Witness for C6 (amended) at a concrete input. -/
theorem callRpcWithRetry_spec_witness :
    1 ≤ 2 ∧
    (callRpcWithRetry 0 retryWitnessOutcomes 2 =
      (rpcOutcomeToRetryResult (retryWitnessOutcomes (retryStopAttempt retryWitnessOutcomes 2)),
       (List.range' 1 (retryStopAttempt retryWitnessOutcomes 2 - 1)).map
         (retryDelayAt 0 retryWitnessOutcomes)) ∧
     (∀ j, 1 ≤ j → j < retryStopAttempt retryWitnessOutcomes 2 →
       ∃ e, retryWitnessOutcomes j = Except.error e ∧ isRateLimitError e = true) ∧
     (∀ e, retryWitnessOutcomes (retryStopAttempt retryWitnessOutcomes 2) = Except.error e →
       isRateLimitError e = false ∨ retryStopAttempt retryWitnessOutcomes 2 = 2) ∧
     1 ≤ retryStopAttempt retryWitnessOutcomes 2 ∧
     retryStopAttempt retryWitnessOutcomes 2 ≤ 2) :=
  ⟨by decide, callRpcWithRetry_spec 0 retryWitnessOutcomes 2 (by decide)⟩

/-- A permanently throttling failure carrying a 3600-second retry hint. -/
def alwaysThrottledError : RpcError :=
  { status := some 429, retryAfter := RetryAfterValue.numeric 3600 }

/-- C6 counterexample: the claimed elapsed-time budget does not exist.
With the default four attempts and an error whose retry hint is 3600 s,
the wrapper sleeps three full hours (3600000 ms, three times) and only
then propagates the failure; after the first sleep the cumulative elapsed
wait already exceeds every duration configured in the module (the largest
is `MAX_RETRY_DELAY_MS` = 10000 ms), yet the wrapper sleeps again instead
of failing immediately before the sleep. -/
theorem callRpcWithRetry_no_time_budget :
    (callRpcWithRetry 0 (fun _ => Except.error alwaysThrottledError)
        MAX_RPC_RETRIES : Except RetryError Unit × List Int).2 =
      [3600000, 3600000, 3600000] ∧
    (callRpcWithRetry 0 (fun _ => Except.error alwaysThrottledError)
        MAX_RPC_RETRIES : Except RetryError Unit × List Int).1 =
      Except.error (RetryError.rpc alwaysThrottledError) ∧
    MAX_RETRY_DELAY_MS < 3600000 := by
  refine ⟨?_, ?_, by norm_num [MAX_RETRY_DELAY_MS]⟩ <;>
    simp [callRpcWithRetry, retryLoop, MAX_RPC_RETRIES, alwaysThrottledError,
      isRateLimitError, getRetryDelayMs, parseRetryAfterHeader]

theorem boundarySearch_fromDir_spec (ts : Nat → Int) (latest : Nat) (target : Int)
    (hmono : ∀ a b : Nat, a ≤ b → b ≤ latest → ts a ≤ ts b) :
    ∀ n : Nat, ∀ low high : Int, ∀ result : Nat,
      (high + 1 - low).toNat = n →
      0 ≤ low → high ≤ (latest : Int) →
      (∀ i : Nat, (i : Int) < low → ts i < target) →
      (∀ i : Nat, i ≤ latest → high < (i : Int) → target ≤ ts i) →
      target ≤ ts result → result ≤ latest →
      ((result : Int) = high + 1 ∨ (high = (latest : Int) ∧ result = latest)) →
      (target ≤ ts (boundarySearch ts Direction.fromDir target low high result) ∧
       boundarySearch ts Direction.fromDir target low high result ≤ latest ∧
       ∀ m : Nat, m ≤ latest → target ≤ ts m →
         boundarySearch ts Direction.fromDir target low high result ≤ m) := by
  intro n
  induction n using Nat.strong_induction_on with
  | _ n ih =>
    intro low high result hn h0 hhl h3 h4 h5a h5b h6
    rw [boundarySearch.eq_def]
    by_cases hlh : low ≤ high
    · rw [dif_pos hlh]
      dsimp only
      have hmidlb : low ≤ (low + high) / 2 := by omega
      have hmidub : (low + high) / 2 ≤ high := by omega
      have hmid0 : 0 ≤ (low + high) / 2 := by omega
      by_cases hts : target ≤ ts ((low + high) / 2).toNat
      · rw [if_pos hts]
        refine ih (((low + high) / 2 - 1 + 1 - low).toNat) (by omega)
          low ((low + high) / 2 - 1) ((low + high) / 2).toNat rfl h0 (by omega) h3
          ?_ hts (by omega) (by omega)
        intro i hi hgt
        exact le_trans hts (hmono ((low + high) / 2).toNat i (by omega) hi)
      · rw [if_neg hts]
        refine ih ((high + 1 - ((low + high) / 2 + 1)).toNat) (by omega)
          ((low + high) / 2 + 1) high result rfl (by omega) hhl ?_ h4 h5a h5b h6
        intro i hilt
        have hts' : ts ((low + high) / 2).toNat < target := lt_of_not_le hts
        have hle : ts i ≤ ts ((low + high) / 2).toNat :=
          hmono i ((low + high) / 2).toNat (by omega) (by omega)
        exact lt_of_le_of_lt hle hts'
    · rw [dif_neg hlh]
      refine ⟨h5a, h5b, ?_⟩
      intro m hm hq
      have hlowm : ¬ (m : Int) < low := by
        intro hc
        exact absurd (h3 m hc) (not_lt.mpr hq)
      rcases h6 with heq | ⟨hh, hr⟩
      · omega
      · omega

theorem boundarySearch_toDir_spec (ts : Nat → Int) (latest : Nat) (target : Int)
    (hmono : ∀ a b : Nat, a ≤ b → b ≤ latest → ts a ≤ ts b) :
    ∀ n : Nat, ∀ low high : Int, ∀ result : Nat,
      (high + 1 - low).toNat = n →
      0 ≤ low → high ≤ (latest : Int) →
      (∀ i : Nat, i ≤ latest → high < (i : Int) → target < ts i) →
      ts result ≤ target → result ≤ latest →
      ((result : Int) = low - 1 ∨ (low = 0 ∧ result = 0)) →
      (ts (boundarySearch ts Direction.toDir target low high result) ≤ target ∧
       boundarySearch ts Direction.toDir target low high result ≤ latest ∧
       ∀ m : Nat, m ≤ latest → ts m ≤ target →
         m ≤ boundarySearch ts Direction.toDir target low high result) := by
  intro n
  induction n using Nat.strong_induction_on with
  | _ n ih =>
    intro low high result hn h0 hhl h3 h5a h5b h6
    rw [boundarySearch.eq_def]
    by_cases hlh : low ≤ high
    · rw [dif_pos hlh]
      dsimp only
      have hmidlb : low ≤ (low + high) / 2 := by omega
      have hmidub : (low + high) / 2 ≤ high := by omega
      have hmid0 : 0 ≤ (low + high) / 2 := by omega
      by_cases hts : ts ((low + high) / 2).toNat ≤ target
      · rw [if_pos hts]
        exact ih ((high + 1 - ((low + high) / 2 + 1)).toNat) (by omega)
          ((low + high) / 2 + 1) high ((low + high) / 2).toNat rfl (by omega) hhl h3
          hts (by omega) (by omega)
      · rw [if_neg hts]
        refine ih (((low + high) / 2 - 1 + 1 - low).toNat) (by omega)
          low ((low + high) / 2 - 1) result rfl h0 (by omega) ?_ h5a h5b h6
        intro i hi hgt
        have hts' : target < ts ((low + high) / 2).toNat := lt_of_not_le hts
        have hle : ts ((low + high) / 2).toNat ≤ ts i :=
          hmono ((low + high) / 2).toNat i (by omega) hi
        exact lt_of_lt_of_le hts' hle
    · rw [dif_neg hlh]
      refine ⟨h5a, h5b, ?_⟩
      intro m hm hq
      have hhighm : ¬ high < (m : Int) := by
        intro hc
        exact absurd (h3 m hm hc) (not_lt.mpr hq)
      rcases h6 with heq | ⟨hl0, hr⟩
      · omega
      · omega

/-- C4: over a chain whose block timestamps are nondecreasing in height,
`findBoundaryBlock` with direction `from` returns the smallest height in
`[0, latestHeight]` whose timestamp is ≥ the target, `undefined` when the
target is after the latest known timestamp, and 0 when the target is ≤ the
earliest known timestamp; with direction `to` it returns the largest
height whose timestamp is ≤ the target, `undefined` when the target
precedes the earliest known timestamp, and `latestHeight` when the target
is ≥ the latest known timestamp. -/
theorem findBoundaryBlock_spec (ts : Nat → Int) (latest : Nat) (target : Int)
    (hmono : ∀ a b : Nat, a ≤ b → b ≤ latest → ts a ≤ ts b) :
    ((ts latest < target →
        findBoundaryBlock ts latest (ts 0) (ts latest) (some target) Direction.fromDir = none) ∧
     (target ≤ ts latest →
        ∃ n, findBoundaryBlock ts latest (ts 0) (ts latest) (some target) Direction.fromDir = some n ∧
          n ≤ latest ∧ target ≤ ts n ∧ ∀ m, m ≤ latest → target ≤ ts m → n ≤ m) ∧
     (target ≤ ts 0 →
        findBoundaryBlock ts latest (ts 0) (ts latest) (some target) Direction.fromDir = some 0)) ∧
    ((target < ts 0 →
        findBoundaryBlock ts latest (ts 0) (ts latest) (some target) Direction.toDir = none) ∧
     (ts 0 ≤ target →
        ∃ n, findBoundaryBlock ts latest (ts 0) (ts latest) (some target) Direction.toDir = some n ∧
          n ≤ latest ∧ ts n ≤ target ∧ ∀ m, m ≤ latest → ts m ≤ target → m ≤ n) ∧
     (ts latest ≤ target →
        findBoundaryBlock ts latest (ts 0) (ts latest) (some target) Direction.toDir = some latest)) := by
  have h0latest : ts 0 ≤ ts latest := hmono 0 latest (Nat.zero_le _) le_rfl
  constructor
  · refine ⟨?_, ?_, ?_⟩
    · intro hlt
      rw [findBoundaryBlock]
      rw [if_pos hlt]
    · intro hle
      by_cases hearly : target ≤ ts 0
      · refine ⟨0, ?_, Nat.zero_le _, hearly, fun m _ _ => Nat.zero_le _⟩
        rw [findBoundaryBlock]
        rw [if_neg (not_lt.mpr hle), if_pos hearly]
      · have hspec := boundarySearch_fromDir_spec ts latest target hmono
          (((latest : Int) + 1 - 0).toNat) 0 latest latest rfl le_rfl le_rfl
          (fun i hi => absurd hi (by omega))
          (fun i hi hgt => absurd hgt (by omega))
          hle le_rfl (Or.inr ⟨rfl, rfl⟩)
        refine ⟨boundarySearch ts Direction.fromDir target 0 latest latest, ?_,
          hspec.2.1, hspec.1, hspec.2.2⟩
        rw [findBoundaryBlock]
        rw [if_neg (not_lt.mpr hle), if_neg hearly]
    · intro hearly
      rw [findBoundaryBlock]
      rw [if_neg (not_lt.mpr (le_trans hearly h0latest)), if_pos hearly]
  · refine ⟨?_, ?_, ?_⟩
    · intro hlt
      rw [findBoundaryBlock]
      rw [if_pos hlt]
    · intro hle
      by_cases hlate : ts latest ≤ target
      · refine ⟨latest, ?_, le_rfl, hlate, fun m hm _ => hm⟩
        rw [findBoundaryBlock]
        rw [if_neg (not_lt.mpr hle), if_pos hlate]
      · have hspec := boundarySearch_toDir_spec ts latest target hmono
          (((latest : Int) + 1 - 0).toNat) 0 latest 0 rfl le_rfl le_rfl
          (fun i hi hgt => absurd hgt (by omega))
          hle (Nat.zero_le _) (Or.inr ⟨rfl, rfl⟩)
        refine ⟨boundarySearch ts Direction.toDir target 0 latest 0, ?_,
          hspec.2.1, hspec.1, hspec.2.2⟩
        rw [findBoundaryBlock]
        rw [if_neg (not_lt.mpr hle), if_neg hlate]
    · intro hlate
      rw [findBoundaryBlock]
      rw [if_neg (not_lt.mpr (le_trans h0latest hlate)), if_pos hlate]

/-- A concrete three-block chain for the C4 witness. -/
def tsChainExample : Nat → Int := fun n =>
  if n = 0 then 1000 else if n = 1 then 2000 else 3000

/-- Witness for C4 at the concrete chain and target 1500. -/
theorem findBoundaryBlock_spec_witness :
    (∀ a b : Nat, a ≤ b → b ≤ 2 → tsChainExample a ≤ tsChainExample b) ∧
    (((tsChainExample 2 < 1500 →
        findBoundaryBlock tsChainExample 2 (tsChainExample 0) (tsChainExample 2) (some 1500) Direction.fromDir = none) ∧
      ((1500 : Int) ≤ tsChainExample 2 →
        ∃ n, findBoundaryBlock tsChainExample 2 (tsChainExample 0) (tsChainExample 2) (some 1500) Direction.fromDir = some n ∧
          n ≤ 2 ∧ (1500 : Int) ≤ tsChainExample n ∧ ∀ m, m ≤ 2 → (1500 : Int) ≤ tsChainExample m → n ≤ m) ∧
      ((1500 : Int) ≤ tsChainExample 0 →
        findBoundaryBlock tsChainExample 2 (tsChainExample 0) (tsChainExample 2) (some 1500) Direction.fromDir = some 0)) ∧
     (((1500 : Int) < tsChainExample 0 →
        findBoundaryBlock tsChainExample 2 (tsChainExample 0) (tsChainExample 2) (some 1500) Direction.toDir = none) ∧
      (tsChainExample 0 ≤ 1500 →
        ∃ n, findBoundaryBlock tsChainExample 2 (tsChainExample 0) (tsChainExample 2) (some 1500) Direction.toDir = some n ∧
          n ≤ 2 ∧ tsChainExample n ≤ 1500 ∧ ∀ m, m ≤ 2 → tsChainExample m ≤ 1500 → m ≤ n) ∧
      (tsChainExample 2 ≤ 1500 →
        findBoundaryBlock tsChainExample 2 (tsChainExample 0) (tsChainExample 2) (some 1500) Direction.toDir = some 2))) :=
  ⟨by intro a b hab hb; interval_cases b <;> interval_cases a <;> simp [tsChainExample],
   findBoundaryBlock_spec tsChainExample 2 1500
     (by intro a b hab hb; interval_cases b <;> interval_cases a <;> simp [tsChainExample])⟩

/-- One entry of a `getEvents` page. -/
structure EventObj where
  transaction_hash : Option String := none
  block_number : Option Nat := none
deriving DecidableEq, Repr

/-- One entry of `receipt.events`. -/
structure ReceiptEvent where
  from_address : Option String := none
  keys : List String := []
deriving DecidableEq, Repr

/-- A transaction receipt, with the fields the source reads.
`revert_reason` models the truthiness of the receipt's revert reason;
`actual_fee_amount` embeds `receipt.actual_fee?.amount`; `events` is
`none` when the receipt's `events` member is not an array. -/
structure Receipt where
  block_number : Option Nat := none
  execution_status : Option String := none
  revert_reason : Bool := false
  actual_fee_amount : Option String := none
  sender_address : Option String := none
  type : Option String := none
  events : Option (List ReceiptEvent) := none
deriving DecidableEq, Repr

/-- A transaction object from `getTransactionByHash`. -/
structure TxObj where
  entry_point_selector_name : Option String := none
  entry_point_selector : Option String := none
  sender_address : Option String := none
  contract_address : Option String := none
  type : Option String := none
deriving DecidableEq, Repr

/-- Result of `getTransactionByHash`: the call throws, resolves
`undefined`, or resolves a transaction object. -/
inductive TxLookup where
  | throws
  | missing
  | found (tx : TxObj)
deriving DecidableEq, Repr

/-- One invocation node of an execution trace: contract address, the three
possible selector fields, caller address, and nested `calls`.  An absent
JS field is `none`. -/
inductive Invocation where
  | mk (contract_address : Option String)
       (entry_point_selector_name : Option String)
       (entry_point_selector : Option String)
       (selector : Option String)
       (caller_address : Option String)
       (calls : List Invocation)

/-- Field accessor. -/
def Invocation.contract_address : Invocation → Option String
  | Invocation.mk ca _ _ _ _ _ => ca

/-- Field accessor. -/
def Invocation.entry_point_selector_name : Invocation → Option String
  | Invocation.mk _ na _ _ _ _ => na

/-- Field accessor. -/
def Invocation.entry_point_selector : Invocation → Option String
  | Invocation.mk _ _ sel _ _ _ => sel

/-- Field accessor. -/
def Invocation.selector : Invocation → Option String
  | Invocation.mk _ _ _ raw _ _ => raw

/-- Field accessor. -/
def Invocation.caller_address : Invocation → Option String
  | Invocation.mk _ _ _ _ c _ => c

/-- Field accessor. -/
def Invocation.calls : Invocation → List Invocation
  | Invocation.mk _ _ _ _ _ cs => cs

/-- The `invoke_tx_trace` branch of a trace. -/
structure InvokeTrace where
  execute_invocation : Option Invocation := none

/-- The `deploy_account_tx_trace` branch of a trace. -/
structure DeployAccountTrace where
  constructor_invocation : Option Invocation := none

/-- The `l1_handler_tx_trace` branch of a trace. -/
structure L1HandlerTrace where
  function_invocation : Option Invocation := none

/-- The `declare_tx_trace` branch of a trace. -/
structure DeclareTrace where
  validate_invocation : Option Invocation := none

/-- A transaction execution trace, with the four per-kind branches. -/
structure TraceObj where
  invoke_tx_trace : Option InvokeTrace := none
  deploy_account_tx_trace : Option DeployAccountTrace := none
  l1_handler_tx_trace : Option L1HandlerTrace := none
  declare_tx_trace : Option DeclareTrace := none

/-- Result of `getTransactionTrace`: the call throws, or resolves a value
(possibly `undefined`). -/
inductive TraceLookup where
  | throws
  | value (t : Option TraceObj)

/-- One entry of `block.transactions` from `getBlockWithTxs`. -/
structure TxSummary where
  transaction_hash : Option String := none
  hash : Option String := none
  type : Option String := none
  sender_address : Option String := none
  contract_address : Option String := none
deriving DecidableEq, Repr

/-- A block with full transactions from `getBlockWithTxs`. -/
structure BlockWithTxs where
  timestamp : Option Int := none
  transactions : List TxSummary := []

/-- The node a discovery run talks to, plus the ambient wall clock and the
short-string decoder.  For each RPC surface, `none`/`throws` means the
call throws (after its retries); the `latest` block call is assumed to
succeed, returning `latestBlockNumber` and that block's timestamp (or
`now` when absent), as the mocked providers of the test suite do. -/
structure World where
  now : Int
  latestBlockNumber : Nat
  blockTs : Nat → Option Int
  eventPages : List (List EventObj)
  receipts : String → Option Receipt
  txByHash : String → TxLookup
  blocksWithTxs : Nat → Option BlockWithTxs
  traces : String → TraceLookup
  decodeShort : String → Option String

/-- One logged RPC call of a run (`none` height = the `latest` block). -/
inductive RpcCall where
  | blockWithTxHashes (id : Option Nat)
  | eventsPage (token : Nat)
  | txReceipt (h : String)
  | txByHash (h : String)
  | blockWithTxs (n : Nat)
  | txTrace (h : String)
deriving DecidableEq, Repr

/-- Whether a call is a block-timestamp (`getBlockWithTxHashes`) lookup —
the only kind the boundary-resolution phase performs. -/
def RpcCall.isBlockTimestampCall : RpcCall → Bool
  | RpcCall.blockWithTxHashes _ => true
  | _ => false

/-- The per-run block-timestamp cache (`Map.set` = prepend, newest wins). -/
abbrev TsCache := List (Nat × Int)

/-- `getBlockTimestamp` (source lines 340-347): `null` height gives the
wall clock; else the cache, else a node call whose result is cached.
Returns `none` when the node call throws (cache unchanged), and the calls
made. -/
def getBlockTimestampM (w : World) (cache : TsCache) (bn : Option Nat) :
    Option (Int × TsCache) × List RpcCall :=
  match bn with
  | none => (some (w.now, cache), [])
  | some n =>
    match cache.lookup n with
    | some t => (some (t, cache), [])
    | none =>
      match w.blockTs n with
      | none => (none, [RpcCall.blockWithTxHashes (some n)])
      | some t => (some (t, (n, t) :: cache), [RpcCall.blockWithTxHashes (some n)])

/-- The binary-search loop of `findBoundaryBlock` as run against the node,
threading the timestamp cache and logging calls; `none` = a timestamp
lookup threw (this aborts the whole run). -/
def boundarySearchM (w : World) (dir : Direction) (target : Int)
    (low high : Int) (result : Nat) (cache : TsCache) :
    Option (Nat × TsCache) × List RpcCall :=
  if _h : low ≤ high then
    let mid := (low + high) / 2
    match getBlockTimestampM w cache (some mid.toNat) with
    | (none, calls) => (none, calls)
    | (some (timestamp, cache'), calls) =>
      match dir with
      | Direction.fromDir =>
        if target ≤ timestamp then
          let r := boundarySearchM w dir target low (mid - 1) mid.toNat cache'
          (r.1, calls ++ r.2)
        else
          let r := boundarySearchM w dir target (mid + 1) high result cache'
          (r.1, calls ++ r.2)
      | Direction.toDir =>
        if timestamp ≤ target then
          let r := boundarySearchM w dir target (mid + 1) high mid.toNat cache'
          (r.1, calls ++ r.2)
        else
          let r := boundarySearchM w dir target low (mid - 1) result cache'
          (r.1, calls ++ r.2)
  else (some (result, cache), [])
termination_by (high + 1 - low).toNat
decreasing_by
  all_goals omega

/-- `findBoundaryBlock` (source lines 355-397) as run against the node. -/
def findBoundaryBlockM (w : World) (latestBlockNumber : Nat)
    (earliestTimestamp latestTimestamp : Int) (target : Option Int)
    (dir : Direction) (cache : TsCache) :
    Option (Option Nat × TsCache) × List RpcCall :=
  match target with
  | none =>
    (some ((match dir with
            | Direction.fromDir => some 0
            | Direction.toDir => some latestBlockNumber), cache), [])
  | some t =>
    match dir with
    | Direction.fromDir =>
      if latestTimestamp < t then (some (none, cache), [])
      else if t ≤ earliestTimestamp then (some (some 0, cache), [])
      else
        match boundarySearchM w Direction.fromDir t 0 latestBlockNumber latestBlockNumber cache with
        | (none, calls) => (none, calls)
        | (some (n, cache'), calls) => (some (some n, cache'), calls)
    | Direction.toDir =>
      if t < earliestTimestamp then (some (none, cache), [])
      else if latestTimestamp ≤ t then (some (some latestBlockNumber, cache), [])
      else
        match boundarySearchM w Direction.toDir t 0 latestBlockNumber 0 cache with
        | (none, calls) => (none, calls)
        | (some (n, cache'), calls) => (some (some n, cache'), calls)

/-- The boundary-resolution results of a run's setup phase. -/
structure Setup where
  latestTs : Int
  earliestTs : Int
  fromBlock : Option Nat
  toBlock : Option Nat
  cache : TsCache
deriving DecidableEq, Repr

/-- The setup phase of `fetchInteractions` (source lines 349-400): fetch
the latest block, seed the cache, resolve the earliest timestamp and both
boundary heights.  `none` = an uncaught node failure aborts the run. -/
def resolveSetup (w : World) (p : FetchParams) : Option Setup × List RpcCall :=
  let latestTs := (w.blockTs w.latestBlockNumber).getD w.now
  let cache0 : TsCache := [(w.latestBlockNumber, latestTs)]
  match getBlockTimestampM w cache0 (some 0) with
  | (none, calls1) => (none, RpcCall.blockWithTxHashes none :: calls1)
  | (some (earliestTs, cache1), calls1) =>
    match findBoundaryBlockM w w.latestBlockNumber earliestTs latestTs p.fromTs
        Direction.fromDir cache1 with
    | (none, calls2) => (none, RpcCall.blockWithTxHashes none :: (calls1 ++ calls2))
    | (some (fromBlock, cache2), calls2) =>
      match findBoundaryBlockM w w.latestBlockNumber earliestTs latestTs p.toTs
          Direction.toDir cache2 with
      | (none, calls3) =>
        (none, RpcCall.blockWithTxHashes none :: (calls1 ++ calls2 ++ calls3))
      | (some (toBlock, cache3), calls3) =>
        (some { latestTs := latestTs, earliestTs := earliestTs,
                fromBlock := fromBlock, toBlock := toBlock, cache := cache3 },
         RpcCall.blockWithTxHashes none :: (calls1 ++ calls2 ++ calls3))

/-- `decodeSelector` (source lines 304-312): falsy input gives no
entrypoint; a non-`0x` value passes through; a `0x` value is short-string
decoded, falling back to the raw value when decoding throws. -/
def decodeSelector (w : World) (value : Option String) : Option String :=
  match truthyStr value with
  | none => none
  | some s =>
    if ¬ startsWith0x s then some s
    else
      match w.decodeShort s with
      | some decoded => some decoded
      | none => some s

/-- Row status (source lines 524, 619): REJECTED iff the receipt reports a
REVERTED execution status or carries a revert reason. -/
def statusFromReceipt (r : Receipt) : TxStatus :=
  if r.execution_status == some REVERTED_STATUS || r.revert_reason then TxStatus.REJECTED
  else TxStatus.ACCEPTED

/-- The selector source for an event-scanned row (source lines 517-520):
the transaction's named or raw selector, else the first key of the
receipt event emitted by the queried contract. -/
def eventRowSelectorInput (tx : Option TxObj) (eventForContract : Option ReceiptEvent) :
    Option String :=
  jsOrStr
    (match tx with
     | some t => jsOrStr t.entry_point_selector_name t.entry_point_selector
     | none => none)
    (match eventForContract with
     | some e => e.keys.head?
     | none => none)

/-- Build the row for one event-scanned transaction (the `try` body of
source lines 506-537): receipt, block timestamp, transaction lookup,
enrichment, row construction.  `none` = the processing failed partway (a
throw or a missing receipt) and the event is skipped; the cache keeps any
entries added before the failure, and all calls made are logged. -/
def buildEventRow (w : World) (p : FetchParams) (addrLower : String)
    (cache : TsCache) (ev : EventObj) (txHash : String) :
    Option TxRow × TsCache × List RpcCall :=
  match w.receipts txHash with
  | none => (none, cache, [RpcCall.txReceipt txHash])
  | some receipt =>
    match getBlockTimestampM w cache
        (match receipt.block_number with
         | some b => some b
         | none => ev.block_number) with
    | (none, tsCalls) => (none, cache, RpcCall.txReceipt txHash :: tsCalls)
    | (some (timestamp, cache'), tsCalls) =>
      match w.txByHash txHash with
      | TxLookup.throws =>
        (none, cache', RpcCall.txReceipt txHash :: (tsCalls ++ [RpcCall.txByHash txHash]))
      | txres =>
        let tx : Option TxObj :=
          match txres with
          | TxLookup.found t => some t
          | _ => none
        let eventForContract : Option ReceiptEvent :=
          match receipt.events with
          | none => none
          | some evs => evs.find? (fun e => toLowerStr (e.from_address.getD EMPTY_STR) == addrLower)
        let entrypoint := decodeSelector w (eventRowSelectorInput tx eventForContract)
        let caller :=
          (jsOrStr receipt.sender_address
            (jsOrStr (tx.bind TxObj.sender_address) (tx.bind TxObj.contract_address))).getD ZERO_ADDR
        let type := toTxType (jsOrStr receipt.type (tx.bind TxObj.type))
        let status := statusFromReceipt receipt
        let fee := toFee receipt.actual_fee_amount
        let row : TxRow :=
          { timestamp := timestamp, txHash := txHash, type := type,
            entrypoint := entrypoint, caller := caller, toAddr := p.address,
            fee := fee, status := status, network := p.network }
        (some row, cache', RpcCall.txReceipt txHash :: (tsCalls ++ [RpcCall.txByHash txHash]))

/-- The event-scan loop state: accumulation, cache, and the early-stop
flag (`continuation = undefined; break`). -/
structure EvState where
  scan : ScanState
  cache : TsCache
  brk : Bool

/-- Process one event (source lines 502-547): skip falsy or seen hashes;
build the row; accumulate via `addRow`; stop the scan early once an added
row reaches the match threshold.  A failure skips just this event. -/
def processEvent (w : World) (p : FetchParams) (addrLower : String) (limit : Nat)
    (st : EvState) (ev : EventObj) : EvState × List RpcCall :=
  if st.brk then (st, [])
  else
    match truthyStr ev.transaction_hash with
    | none => (st, [])
    | some txHash =>
      if st.scan.seenTx.contains txHash then (st, [])
      else
        match buildEventRow w p addrLower st.cache ev txHash with
        | (none, cache', calls) => ({ st with cache := cache' }, calls)
        | (some row, cache', calls) =>
          let ar := addRow p limit st.scan row
          ({ scan := ar.1, cache := cache', brk := ar.2 && ar.1.reachedLimit }, calls)

/-- Fold `processEvent` over one event page. -/
def processEvents (w : World) (p : FetchParams) (addrLower : String) (limit : Nat)
    (st : EvState) : List EventObj → EvState × List RpcCall
  | [] => (st, [])
  | ev :: rest =>
    let r1 := processEvent w p addrLower limit st ev
    let r2 := processEvents w p addrLower limit r1.1 rest
    (r2.1, r1.2 ++ r2.2)

/-- The `do … while (continuation)` event-page loop (source lines
490-548), with continuation tokens modelled as page indices (`some (k+1)`
iff a further page exists).  Returns the state, the last
`nextContinuationToken` recorded, and the calls. -/
def eventLoop (w : World) (p : FetchParams) (addrLower : String) (limit : Nat)
    (k : Nat) (st : EvState) : EvState × Option Nat × List RpcCall :=
  let page := w.eventPages.getD k []
  if _h : k + 1 < w.eventPages.length then
    let pr := processEvents w p addrLower limit st page
    if pr.1.brk then (pr.1, some (k + 1), RpcCall.eventsPage k :: pr.2)
    else
      let r := eventLoop w p addrLower limit (k + 1) pr.1
      (r.1, r.2.1, RpcCall.eventsPage k :: (pr.2 ++ r.2.2))
  else
    let pr := processEvents w p addrLower limit st page
    (pr.1, none, RpcCall.eventsPage k :: pr.2)
termination_by w.eventPages.length - k

mutual

/-- `findInvocationForAddress` (source lines 437-451): depth-first search
of an invocation tree for a node whose contract address matches the
queried address case-insensitively. -/
def findInvocationForAddress (addrLower : String) : Invocation → Option Invocation
  | Invocation.mk ca na sel raw caller calls =>
    if toLowerStr (ca.getD EMPTY_STR) == addrLower then
      some (Invocation.mk ca na sel raw caller calls)
    else findInvocationInCalls addrLower calls

/-- Search the `calls` array in order, returning the first match. -/
def findInvocationInCalls (addrLower : String) : List Invocation → Option Invocation
  | [] => none
  | c :: rest =>
    match findInvocationForAddress addrLower c with
    | some found => some found
    | none => findInvocationInCalls addrLower rest

end

/-- `tryInvocation` applied to a possibly-absent invocation (the
`!invocation` guard of `findInvocationForAddress`). -/
def tryInvocationOpt (addrLower : String) (inv : Option Invocation) : Option Invocation :=
  match inv with
  | none => none
  | some i => findInvocationForAddress addrLower i

/-- `extractInvocationFromTrace` (source lines 453-488): try the four
per-kind branches in order; the invoke branch additionally requires the
`execute_invocation` object to carry a `contract_address` field. -/
def extractInvocationFromTrace (addrLower : String) (trace : Option TraceObj) :
    Option Invocation :=
  match trace with
  | none => none
  | some t =>
    match (match t.invoke_tx_trace with
           | none => none
           | some it =>
             match it.execute_invocation with
             | none => none
             | some ex =>
               if ex.contract_address.isSome then findInvocationForAddress addrLower ex
               else none) with
    | some found => some found
    | none =>
      match (match t.deploy_account_tx_trace with
             | none => none
             | some dt => tryInvocationOpt addrLower dt.constructor_invocation) with
      | some found => some found
      | none =>
        match (match t.l1_handler_tx_trace with
               | none => none
               | some lt => tryInvocationOpt addrLower lt.function_invocation) with
        | some found => some found
        | none =>
          match t.declare_tx_trace with
          | none => none
          | some dt => tryInvocationOpt addrLower dt.validate_invocation

/-- The trace-fallback loop state: accumulation, cache, the
`txScanComplete` and `fallbackBudgetExhausted` flags, and the remaining
lookup budget. -/
structure TrState where
  scan : ScanState
  cache : TsCache
  txScanComplete : Bool
  fallbackBudgetExhausted : Bool
  remaining : Nat

/-- Build the row for one trace-scanned transaction (the `try` body of
source lines 605-644): trace fetch (budget consumed on success of the
fetch), invocation-tree search, receipt, timestamp, row construction from
the matched invocation.  `none` = this transaction is skipped. -/
def buildTraceRow (w : World) (p : FetchParams) (addrLower : String)
    (cache : TsCache) (remaining : Nat) (bn : Nat) (tx : TxSummary) (txHash : String) :
    Option TxRow × TsCache × Nat × List RpcCall :=
  match w.traces txHash with
  | TraceLookup.throws => (none, cache, remaining, [RpcCall.txTrace txHash])
  | TraceLookup.value tr =>
    let remaining' := remaining - 1
    match extractInvocationFromTrace addrLower tr with
    | none => (none, cache, remaining', [RpcCall.txTrace txHash])
    | some invocation =>
      if ¬ (toLowerStr (invocation.contract_address.getD EMPTY_STR) == addrLower) then
        (none, cache, remaining', [RpcCall.txTrace txHash])
      else
        match w.receipts txHash with
        | none =>
          (none, cache, remaining', [RpcCall.txTrace txHash, RpcCall.txReceipt txHash])
        | some receipt =>
          match getBlockTimestampM w cache (some (receipt.block_number.getD bn)) with
          | (none, tsCalls) =>
            (none, cache, remaining',
             RpcCall.txTrace txHash :: RpcCall.txReceipt txHash :: tsCalls)
          | (some (timestamp, cache'), tsCalls) =>
            let type := toTxType (jsOrStr receipt.type tx.type)
            let status := statusFromReceipt receipt
            let fee := toFee receipt.actual_fee_amount
            let entrypoint := decodeSelector w
              (jsOrStr invocation.entry_point_selector_name
                (jsOrStr invocation.entry_point_selector invocation.selector))
            let caller :=
              (jsOrStr invocation.caller_address
                (jsOrStr receipt.sender_address
                  (jsOrStr tx.sender_address tx.contract_address))).getD ZERO_ADDR
            let row : TxRow :=
              { timestamp := timestamp, txHash := txHash, type := type,
                entrypoint := entrypoint, caller := caller,
                toAddr := (truthyStr invocation.contract_address).getD p.address,
                fee := fee, status := status, network := p.network }
            (some row, cache', remaining',
             RpcCall.txTrace txHash :: RpcCall.txReceipt txHash :: tsCalls)

/-- The inner per-transaction loop of the trace fallback (source lines
590-648): threshold and budget checks before each transaction, then
trace-based row building and accumulation; per-transaction errors skip
that transaction only. -/
def traceTxLoop (w : World) (p : FetchParams) (addrLower : String) (limit : Nat)
    (bn : Nat) : List TxSummary → TrState → TrState × List RpcCall
  | [], st => (st, [])
  | tx :: rest, st =>
    if st.scan.reachedLimit then ({ st with txScanComplete := false }, [])
    else if st.remaining = 0 then
      ({ st with txScanComplete := false, fallbackBudgetExhausted := true }, [])
    else
      match jsOrStr tx.transaction_hash tx.hash with
      | none => traceTxLoop w p addrLower limit bn rest st
      | some txHash =>
        match buildTraceRow w p addrLower st.cache st.remaining bn tx txHash with
        | (none, cache', remaining', calls) =>
          let r := traceTxLoop w p addrLower limit bn rest
            { st with cache := cache', remaining := remaining' }
          (r.1, calls ++ r.2)
        | (some row, cache', remaining', calls) =>
          let ar := addRow p limit st.scan row
          let r := traceTxLoop w p addrLower limit bn rest
            { st with scan := ar.1, cache := cache', remaining := remaining' }
          (r.1, calls ++ r.2)

/-- The outer descending-block loop of the trace fallback (source lines
556-651), running from height `bn` down to `start`; `count` is the number
of heights left (`bn - start + 1` at entry).  Threshold and budget checks
come first; a block fetch consumes one unit of budget on success and is
skipped on failure; after a block whose inner loop flagged an early stop,
the outer loop breaks. -/
def traceBlocksLoop (w : World) (p : FetchParams) (addrLower : String) (limit : Nat)
    (start : Nat) : Nat → Nat → TrState → TrState × List RpcCall
  | 0, _, st => (st, [])
  | count + 1, bn, st =>
    if st.scan.reachedLimit then ({ st with txScanComplete := false }, [])
    else if st.remaining = 0 then
      ({ st with txScanComplete := false, fallbackBudgetExhausted := true }, [])
    else
      match w.blocksWithTxs bn with
      | none =>
        let r := traceBlocksLoop w p addrLower limit start count (bn - 1) st
        (r.1, RpcCall.blockWithTxs bn :: r.2)
      | some block =>
        let st1 := { st with remaining := st.remaining - 1,
                             cache := (bn, block.timestamp.getD w.now) :: st.cache }
        let unseen := block.transactions.filter (fun tx =>
          match jsOrStr tx.transaction_hash tx.hash with
          | some h => ¬ st1.scan.seenTx.contains h
          | none => false)
        if unseen.isEmpty then
          let r := traceBlocksLoop w p addrLower limit start count (bn - 1) st1
          (r.1, RpcCall.blockWithTxs bn :: r.2)
        else
          let inner := traceTxLoop w p addrLower limit bn unseen st1
          if ¬ inner.1.txScanComplete || inner.1.fallbackBudgetExhausted then
            (inner.1, RpcCall.blockWithTxs bn :: inner.2)
          else
            let r := traceBlocksLoop w p addrLower limit start count (bn - 1) inner.1
            (r.1, RpcCall.blockWithTxs bn :: (inner.2 ++ r.2))

/-- The result record of a discovery run (`interface FetchResult`);
`hasMore` is absent on the early empty-range returns. -/
structure FetchResult where
  rows : List TxRow
  totalEstimated : Nat
  hasMore : Option Bool
deriving DecidableEq, Repr

/-- `fetchInteractions` (source lines 294-678) over a `World`: setup and
boundary resolution, the empty-range early returns, the event scan, the
trace fallback (with lookup budget `maxTraceLookups`), and final
assembly.  Returns `none` when an uncaught node failure aborts the run,
else the result paired with whether the budget-exhausted warning was
emitted; the second component lists every RPC call made, in order. -/
def fetchInteractionsM (w : World) (p : FetchParams) (maxTraceLookups : Nat) :
    Option (FetchResult × Bool) × List RpcCall :=
  match resolveSetup w p with
  | (none, calls) => (none, calls)
  | (some s, calls0) =>
    if (p.fromTs.isSome && s.fromBlock.isNone) || (p.toTs.isSome && s.toBlock.isNone) then
      (some ({ rows := [], totalEstimated := 0, hasMore := none }, false), calls0)
    else if (match s.fromBlock, s.toBlock with
             | some fb, some tb => decide (tb < fb)
             | _, _ => false) then
      (some ({ rows := [], totalEstimated := 0, hasMore := none }, false), calls0)
    else
      let limit := p.page * p.pageSize
      let addrLower := toLowerStr p.address
      let ev := eventLoop w p addrLower limit 0
        { scan := initScanState, cache := s.cache, brk := false }
      let blockRangeStart := s.fromBlock.getD 0
      let blockRangeEnd := s.toBlock.getD w.latestBlockNumber
      let tr := traceBlocksLoop w p addrLower limit blockRangeStart
        (blockRangeEnd + 1 - blockRangeStart) blockRangeEnd
        { scan := ev.1.scan, cache := ev.1.cache, txScanComplete := true,
          fallbackBudgetExhausted := false, remaining := maxTraceLookups }
      let filtered := finalFilteredRows p tr.1.scan.allRows
      let sorted := sortByTimestampDesc filtered
      let first := (p.page - 1) * p.pageSize
      let paged := (sorted.drop first).take p.pageSize
      let hasMore := decide (first + p.pageSize < filtered.length) ||
        tr.1.scan.reachedLimit || ev.2.1.isSome || !tr.1.txScanComplete
      (some ({ rows := paged, totalEstimated := filtered.length, hasMore := some hasMore },
             tr.1.fallbackBudgetExhausted),
       calls0 ++ ev.2.2 ++ tr.2)

/-- The accumulated row set of a discovery run: empty for aborted or
short-circuited runs, else everything both scanners accumulated (this
mirrors the run structure of `fetchInteractionsM` up to final assembly). -/
def runAccumulatedRows (w : World) (p : FetchParams) (maxTraceLookups : Nat) : List TxRow :=
  match resolveSetup w p with
  | (none, _) => []
  | (some s, _) =>
    if (p.fromTs.isSome && s.fromBlock.isNone) || (p.toTs.isSome && s.toBlock.isNone) then []
    else if (match s.fromBlock, s.toBlock with
             | some fb, some tb => decide (tb < fb)
             | _, _ => false) then []
    else
      let limit := p.page * p.pageSize
      let addrLower := toLowerStr p.address
      let ev := eventLoop w p addrLower limit 0
        { scan := initScanState, cache := s.cache, brk := false }
      let blockRangeStart := s.fromBlock.getD 0
      let blockRangeEnd := s.toBlock.getD w.latestBlockNumber
      let tr := traceBlocksLoop w p addrLower limit blockRangeStart
        (blockRangeEnd + 1 - blockRangeStart) blockRangeEnd
        { scan := ev.1.scan, cache := ev.1.cache, txScanComplete := true,
          fallbackBudgetExhausted := false, remaining := maxTraceLookups }
      tr.1.scan.allRows

theorem fetch_result_assembly (w : World) (p : FetchParams) (budget : Nat)
    (res : FetchResult) (warned : Bool) (calls : List RpcCall)
    (h : fetchInteractionsM w p budget = (some (res, warned), calls)) :
    res.rows = pagedRows p (runAccumulatedRows w p budget) ∧
    res.totalEstimated = (finalFilteredRows p (runAccumulatedRows w p budget)).length := by
  unfold fetchInteractionsM at h
  unfold runAccumulatedRows
  cases hrs : resolveSetup w p with
  | mk os cs =>
    rw [hrs] at h
    cases os with
    | none => simp at h
    | some s =>
      dsimp only at h ⊢
      by_cases h1 : ((p.fromTs.isSome && s.fromBlock.isNone) ||
          (p.toTs.isSome && s.toBlock.isNone)) = true
      · rw [if_pos h1] at h ⊢
        have hres : res = { rows := [], totalEstimated := 0, hasMore := none } := by
          have := congrArg Prod.fst h
          simp at this
          exact this.1.symm
        subst hres
        constructor
        · simp [pagedRows, sortByTimestampDesc, finalFilteredRows]
        · simp [finalFilteredRows]
      · rw [if_neg h1] at h ⊢
        by_cases h2 : (match s.fromBlock, s.toBlock with
                       | some fb, some tb => decide (tb < fb)
                       | _, _ => false) = true
        · rw [if_pos h2] at h ⊢
          have hres : res = { rows := [], totalEstimated := 0, hasMore := none } := by
            have := congrArg Prod.fst h
            simp at this
            exact this.1.symm
          subst hres
          constructor
          · simp [pagedRows, sortByTimestampDesc, finalFilteredRows]
          · simp [finalFilteredRows]
        · rw [if_neg h2] at h ⊢
          have := congrArg Prod.fst h
          simp only [Option.some.injEq, Prod.mk.injEq] at this
          obtain ⟨hres, _⟩ := this
          subst hres
          exact ⟨rfl, rfl⟩

theorem sortByTimestampDesc_perm (l : List TxRow) : (sortByTimestampDesc l).Perm l :=
  List.mergeSort_perm l _

theorem sortByTimestampDesc_sorted (l : List TxRow) :
    (sortByTimestampDesc l).Pairwise (fun a b => b.timestamp ≤ a.timestamp) := by
  have hs := @List.sorted_mergeSort TxRow
    (fun a b => decide (b.timestamp ≤ a.timestamp))
    (by intro a b c hab hbc; simp only [decide_eq_true_eq] at *; omega)
    (by intro a b; simp only [Bool.or_eq_true, decide_eq_true_eq]; omega) l
  exact hs.imp (fun h => by simpa using h)

theorem mem_pagedRows_filter (p : FetchParams) (acc : List TxRow) (row : TxRow)
    (h : row ∈ pagedRows p acc) :
    matchesFilters p row = true ∧ fromBoundOk p row = true ∧ toBoundOk p row = true := by
  unfold pagedRows at h
  have h1 : row ∈ sortByTimestampDesc (finalFilteredRows p acc) :=
    List.drop_subset _ _ (List.take_subset _ _ h)
  have h2 : row ∈ finalFilteredRows p acc := (sortByTimestampDesc_perm _).mem_iff.mp h1
  have h3 := (List.mem_filter.mp h2).2
  simp only [Bool.and_eq_true] at h3
  exact ⟨h3.1.1, h3.1.2, h3.2⟩

/-- C2: every row returned by `fetchInteractions` satisfies every
requested filter — kind equality, method equality against the entrypoint
(or the fixed placeholder when the row has none), status equality, the
fee bounds, and the inclusive `[from, to]` time bounds. -/
theorem fetch_rows_satisfy_filters (w : World) (p : FetchParams) (budget : Nat)
    (res : FetchResult) (warned : Bool) (calls : List RpcCall) (row : TxRow)
    (h : fetchInteractionsM w p budget = (some (res, warned), calls))
    (hrow : row ∈ res.rows) :
    (∀ t, p.filters.type = some (TypeFilter.kind t) → row.type = t) ∧
    (∀ m, p.filters.method = some m → m ≠ EMPTY_STR →
      entrypointOrPlaceholder row.entrypoint = m) ∧
    (∀ st, p.filters.status = some (StatusFilter.val st) → row.status = st) ∧
    (∀ f, p.filters.minFee = some f → f ≤ row.fee) ∧
    (∀ f, p.filters.maxFee = some f → row.fee ≤ f) ∧
    (∀ t0, p.fromTs = some t0 → t0 ≤ row.timestamp) ∧
    (∀ t1, p.toTs = some t1 → row.timestamp ≤ t1) := by
  obtain ⟨hrows, _⟩ := fetch_result_assembly w p budget res warned calls h
  rw [hrows] at hrow
  obtain ⟨hm, hfrom, hto⟩ := mem_pagedRows_filter p _ row hrow
  unfold matchesFilters at hm
  simp only [Bool.and_eq_true] at hm
  obtain ⟨⟨⟨⟨hty, hme⟩, hst⟩, hmin⟩, hmax⟩ := hm
  refine ⟨?_, ?_, ?_, ?_, ?_, ?_, ?_⟩
  · intro t ht
    rw [ht] at hty
    simpa using hty
  · intro m hme' hne
    rw [hme'] at hme
    dsimp only at hme
    rw [if_neg (by simpa [EMPTY_STR] using hne)] at hme
    simpa using hme
  · intro st hst'
    rw [hst'] at hst
    simpa using hst
  · intro f hf
    rw [hf] at hmin
    simpa using hmin
  · intro f hf
    rw [hf] at hmax
    simpa using hmax
  · intro t0 ht0
    unfold fromBoundOk at hfrom
    rw [ht0] at hfrom
    simpa using hfrom
  · intro t1 ht1
    unfold toBoundOk at hto
    rw [ht1] at hto
    simpa using hto

/-- C3: the returned rows are the filtered accumulated set sorted by
descending timestamp (ties in some order), sliced to exactly the window
`[(page-1)*pageSize, page*pageSize)`, and `totalEstimated` is the count
of filtered rows discovered so far. -/
theorem fetch_rows_sorted_and_sliced (w : World) (p : FetchParams) (budget : Nat)
    (res : FetchResult) (warned : Bool) (calls : List RpcCall)
    (h : fetchInteractionsM w p budget = (some (res, warned), calls))
    (_hpage : 1 ≤ p.page) :
    ∃ sortedRows : List TxRow,
      sortedRows.Perm (finalFilteredRows p (runAccumulatedRows w p budget)) ∧
      sortedRows.Pairwise (fun a b => b.timestamp ≤ a.timestamp) ∧
      res.rows = (sortedRows.drop ((p.page - 1) * p.pageSize)).take p.pageSize ∧
      res.totalEstimated = (finalFilteredRows p (runAccumulatedRows w p budget)).length := by
  obtain ⟨hrows, htotal⟩ := fetch_result_assembly w p budget res warned calls h
  exact ⟨sortByTimestampDesc (finalFilteredRows p (runAccumulatedRows w p budget)),
    sortByTimestampDesc_perm _, sortByTimestampDesc_sorted _, hrows, htotal⟩

/-- The literal `'0x1'` (the scenario transaction hash). -/
def HASH_1 : String := "0x1"

/-- The literal `'0xCAFE'` (the queried contract address). -/
def ADDR_CAFE : String := "0xCAFE"

/-- The literal `'0xcafe'` (the queried address, lowercased). -/
def ADDR_CAFE_LOWER : String := "0xcafe"

/-- The literal `'SUCCEEDED'`. -/
def STR_SUCCEEDED : String := "SUCCEEDED"

/-- The literal `'0x10'` (the scenario fee amount). -/
def STR_0X10 : String := "0x10"

/-- The literal `'0xFF'` (the scenario sender). -/
def STR_0XFF : String := "0xFF"

/-- The literal `'INVOKE'`. -/
def STR_INVOKE : String := "INVOKE"

/-- The literal `'0x123'` (the scenario selector). -/
def STR_0X123 : String := "0x123"

/-- The literal `'0xBEEF'` (the scenario trace caller). -/
def STR_0XBEEF : String := "0xBEEF"

/-- The three-block chain used by the concrete scenarios (heights 0, 1, 2
with timestamps 1000, 2000, 3000). -/
def exampleChainTs : Nat → Option Int := fun n =>
  if n = 0 then some 1000 else if n = 1 then some 2000 else if n = 2 then some 3000 else none

/-- The receipt of transaction `0x1` in the scenarios: block 2, SUCCEEDED,
fee amount `0x10`, sender `0xFF`, kind INVOKE. -/
def exampleReceipt : Receipt :=
  { block_number := some 2, execution_status := some STR_SUCCEEDED,
    actual_fee_amount := some STR_0X10, sender_address := some STR_0XFF,
    type := some STR_INVOKE }

/-- An invoke trace whose execution invocation touches `0xCAFE` at
selector `0x123` from caller `0xBEEF`. -/
def exampleTrace : TraceObj :=
  { invoke_tx_trace := some
      { execute_invocation := some
          (Invocation.mk (some ADDR_CAFE) none (some STR_0X123) none (some STR_0XBEEF) []) } }

/-- Parameters: query `0xCAFE` on mainnet, no time bounds, page 1 of 10,
no filters. -/
def simpleParams : FetchParams :=
  { address := "0xCAFE", network := Network.mainnet, page := 1, pageSize := 10,
    filters := {} }

/-- The world of the budget-exhaustion test (source lines 130-187): no
events; block 2 holds transaction `0x1`, discoverable only via its trace. -/
def budgetWorld : World :=
  { now := 99999
    latestBlockNumber := 2
    blockTs := exampleChainTs
    eventPages := []
    receipts := fun h => if h = "0x1" then some exampleReceipt else none
    txByHash := fun _ => TxLookup.missing
    blocksWithTxs := fun n =>
      if n = 2 then some { timestamp := some 3000,
                           transactions := [{ transaction_hash := some HASH_1,
                                              type := some STR_INVOKE }] }
      else some { timestamp := some 1000, transactions := [] }
    traces := fun h => if h = "0x1" then TraceLookup.value (some exampleTrace)
      else TraceLookup.throws
    decodeShort := fun s => some s }

unseal List.merge List.mergeSort eventLoop boundarySearchM in
/-- C8: with a trace-lookup budget of 1 and one candidate block whose only
transaction touches the contract solely via its trace, the run returns
zero rows with `hasMore = true` and emits the budget-exhausted warning —
fetching the block itself consumed the single budget unit before any
per-transaction trace fetch could happen. -/
theorem traceBudget_one_scenario :
    (fetchInteractionsM budgetWorld simpleParams 1).1 =
      some ({ rows := [], totalEstimated := 0, hasMore := some true }, true) := by
  decide

theorem parseBigIntStr_nonneg (s : String) (v : Int) (h : parseBigIntStr s = some v) :
    0 ≤ v := by
  unfold parseBigIntStr at h
  split at h
  · cases h
    norm_num
  · split at h
    · split at h
      · exact absurd h (by simp)
      · rw [Option.map_eq_some'] at h
        obtain ⟨n, _, hn⟩ := h
        subst hn
        exact Int.natCast_nonneg n
    · rw [Option.map_eq_some'] at h
      obtain ⟨n, _, hn⟩ := h
      subst hn
      exact Int.natCast_nonneg n

theorem parseBigIntStr_empty : parseBigIntStr EMPTY_STR = some 0 := by
  decide

/-- The world of the event-scan scenario: the node returns one matching
event for transaction `0x1` at block 2 (timestamp 3000), whose receipt
has fee amount `0x10` and execution status SUCCEEDED; the trace fallback
finds nothing further. -/
def eventScanWorld : World :=
  { now := 99999
    latestBlockNumber := 2
    blockTs := exampleChainTs
    eventPages := [[{ transaction_hash := some HASH_1, block_number := some 2 }]]
    receipts := fun h => if h = "0x1" then some exampleReceipt else none
    txByHash := fun _ => TxLookup.found { type := some STR_INVOKE }
    blocksWithTxs := fun _ => some { timestamp := some 1000, transactions := [] }
    traces := fun _ => TraceLookup.throws
    decodeShort := fun s => some s }

/-- The row the event-scan scenario produces. -/
def eventScanRow : TxRow :=
  { timestamp := 3000, txHash := "0x1", type := TxType.INVOKE, entrypoint := none,
    caller := "0xFF", toAddr := "0xCAFE", fee := 16, status := TxStatus.ACCEPTED,
    network := Network.mainnet }

unseal List.merge List.mergeSort eventLoop boundarySearchM in
/-- C9: a row's fee is a non-negative number obtained by parsing the
receipt's hexadecimal amount string, and is 0 when the amount is absent
or unparsable; the scenario with event `0x1`, block 2, timestamp 3000,
fee `0x10`, status SUCCEEDED yields the row with `fee = 16`,
`status = ACCEPTED`, `timestamp = 3000`. -/
theorem fee_parsing_spec :
    toFee none = 0 ∧
    (∀ s, parseBigIntStr s = none → toFee (some s) = 0) ∧
    (∀ s v, parseBigIntStr s = some v → toFee (some s) = v ∧ 0 ≤ v) ∧
    (∀ a, 0 ≤ toFee a) ∧
    (fetchInteractionsM eventScanWorld simpleParams 200).1 =
      some ({ rows := [eventScanRow], totalEstimated := 1, hasMore := some false },
            false) := by
  have hnone : ∀ s, parseBigIntStr s = none → toFee (some s) = 0 := by
    intro s h
    have hs : s ≠ "" := by
      intro e
      subst e
      exact absurd h (by simp [parseBigIntStr])
    simp [toFee, hs, h]
  have hsome : ∀ s v, parseBigIntStr s = some v → toFee (some s) = v ∧ 0 ≤ v := by
    intro s v h
    refine ⟨?_, parseBigIntStr_nonneg s v h⟩
    by_cases hs : s = ""
    · subst hs
      have : v = 0 := by
        have h0 := parseBigIntStr_empty
        rw [show EMPTY_STR = "" from rfl] at h0
        rw [h0] at h
        exact (Option.some.injEq _ _ ▸ h).symm ▸ rfl
      simp [toFee, this]
    · simp [toFee, hs, h]
  refine ⟨rfl, hnone, hsome, ?_, by decide⟩
  intro a
  match a with
  | none => norm_num [toFee]
  | some s =>
    cases hp : parseBigIntStr s with
    | none => rw [hnone s hp]
    | some v => rw [(hsome s v hp).1]; exact (hsome s v hp).2

theorem addRow_cases (p : FetchParams) (limit : Nat) (s : ScanState) (row : TxRow) :
    (s.seenTx.contains row.txHash = true ∧ addRow p limit s row = (s, false)) ∨
    (s.seenTx.contains row.txHash = false ∧
     (addRow p limit s row).1.seenTx = row.txHash :: s.seenTx ∧
     (addRow p limit s row).1.allRows = s.allRows ++ [row] ∧
     (addRow p limit s row).2 = true) := by
  by_cases h : s.seenTx.contains row.txHash
  · exact Or.inl ⟨h, by unfold addRow; rw [if_pos h]⟩
  · refine Or.inr ⟨by simpa using h, ?_, ?_, ?_⟩ <;>
      (unfold addRow; rw [if_neg h])

/-- The world of the trace-recovery scenario: the event scan sees
transaction `0x1` but its `getTransactionByHash` throws, so event-scan
processing fails partway; the trace fallback then discovers the same
transaction via its execution trace. -/
def traceRecoveryWorld : World :=
  { now := 99999
    latestBlockNumber := 2
    blockTs := exampleChainTs
    eventPages := [[{ transaction_hash := some HASH_1, block_number := some 2 }]]
    receipts := fun h => if h = "0x1" then some exampleReceipt else none
    txByHash := fun _ => TxLookup.throws
    blocksWithTxs := fun n =>
      if n = 2 then some { timestamp := some 3000,
                           transactions := [{ transaction_hash := some HASH_1,
                                              type := some STR_INVOKE }] }
      else some { timestamp := some 1000, transactions := [] }
    traces := fun h => if h = "0x1" then TraceLookup.value (some exampleTrace)
      else TraceLookup.throws
    decodeShort := fun s => some s }

/-- The row the trace fallback recovers for `0x1` (entrypoint and caller
come from the matched invocation). -/
def traceRecoveryRow : TxRow :=
  { timestamp := 3000, txHash := "0x1", type := TxType.INVOKE,
    entrypoint := some STR_0X123, caller := "0xBEEF", toAddr := "0xCAFE",
    fee := 16, status := TxStatus.ACCEPTED, network := Network.mainnet }

unseal List.merge List.mergeSort eventLoop boundarySearchM in
/-- C10: a transaction whose event-scan processing fails partway is not
added to the seen-transaction set (the event's processing leaves the scan
state unchanged); only a successful accumulation extends `seenTx`, and it
does so exactly when it appends the row; hence the trace fallback can
still discover that transaction, as the concrete scenario shows. -/
theorem eventFailure_keeps_fallback :
    (∀ (w : World) (p : FetchParams) (addrLower : String) (limit : Nat)
       (st : EvState) (ev : EventObj) (txHash : String),
       truthyStr ev.transaction_hash = some txHash →
       st.scan.seenTx.contains txHash = false →
       (buildEventRow w p addrLower st.cache ev txHash).1 = none →
       (processEvent w p addrLower limit st ev).1.scan = st.scan) ∧
    (∀ (p : FetchParams) (limit : Nat) (s : ScanState) (row : TxRow),
       ((addRow p limit s row).1.seenTx = s.seenTx ∧
        (addRow p limit s row).1.allRows = s.allRows) ∨
       ((addRow p limit s row).1.seenTx = row.txHash :: s.seenTx ∧
        (addRow p limit s row).1.allRows = s.allRows ++ [row])) ∧
    (fetchInteractionsM traceRecoveryWorld simpleParams 200).1 =
      some ({ rows := [traceRecoveryRow], totalEstimated := 1, hasMore := some false },
            false) := by
  refine ⟨?_, ?_, by decide⟩
  · intro w p addrLower limit st ev txHash htr hseen hfail
    unfold processEvent
    by_cases hbrk : st.brk
    · rw [if_pos hbrk]
    · rw [if_neg hbrk, htr]
      dsimp only
      rw [if_neg (by simpa using hseen)]
      rcases hb : buildEventRow w p addrLower st.cache ev txHash with ⟨ropt, cache', calls⟩
      rw [hb] at hfail
      dsimp at hfail
      subst hfail
      rfl
  · intro p limit s row
    rcases addRow_cases p limit s row with ⟨_, heq⟩ | ⟨_, hseen, hrows, _⟩
    · exact Or.inl ⟨by rw [heq], by rw [heq]⟩
    · exact Or.inr ⟨hseen, hrows⟩

/-- Witness for C10 at a concrete failing event. -/
theorem eventFailure_keeps_fallback_witness :
    (truthyStr (some HASH_1) = some HASH_1 ∧
     ({ scan := initScanState, cache := [], brk := false } : EvState).scan.seenTx.contains HASH_1 = false ∧
     (buildEventRow traceRecoveryWorld simpleParams ADDR_CAFE_LOWER
       ({ scan := initScanState, cache := [], brk := false } : EvState).cache
       { transaction_hash := some HASH_1, block_number := some 2 } HASH_1).1 = none) ∧
    (processEvent traceRecoveryWorld simpleParams ADDR_CAFE_LOWER 10
      { scan := initScanState, cache := [], brk := false }
      { transaction_hash := some HASH_1, block_number := some 2 }).1.scan =
      ({ scan := initScanState, cache := [], brk := false } : EvState).scan :=
  ⟨by decide,
   eventFailure_keeps_fallback.1 traceRecoveryWorld simpleParams ADDR_CAFE_LOWER 10
     { scan := initScanState, cache := [], brk := false }
     { transaction_hash := some HASH_1, block_number := some 2 } HASH_1
     (by decide) (by decide) (by decide)⟩


theorem getBlockTimestampM_calls (w : World) (cache : TsCache) (bn : Option Nat) :
    ∀ c ∈ (getBlockTimestampM w cache bn).2, c.isBlockTimestampCall = true := by
  intro c hc
  unfold getBlockTimestampM at hc
  repeat' split at hc
  all_goals simp_all [RpcCall.isBlockTimestampCall]

theorem boundarySearchM_calls (w : World) (dir : Direction) (target : Int) :
    ∀ (low high : Int) (result : Nat) (cache : TsCache),
      ∀ c ∈ (boundarySearchM w dir target low high result cache).2,
        c.isBlockTimestampCall = true := by
  intro low high result cache
  induction low, high, result, cache using boundarySearchM.induct w dir target with
  | case1 low high result cache h1 mid calls hg =>
    intro c hc
    rw [boundarySearchM.eq_def, dif_pos h1] at hc
    dsimp only at hc
    rw [hg] at hc
    exact getBlockTimestampM_calls w cache (some ((low + high) / 2).toNat) c
      (by rw [hg]; exact hc)
  | case2 low high result cache h1 mid timestamp cache' calls hg hdir hle ih =>
    intro c hc
    rw [boundarySearchM.eq_def, dif_pos h1] at hc
    dsimp only at hc
    rw [hg, hdir] at hc
    dsimp only at hc
    rw [if_pos hle] at hc
    rcases List.mem_append.mp hc with h | h
    · exact getBlockTimestampM_calls w cache (some ((low + high) / 2).toNat) c
        (by rw [hg]; exact h)
    · rw [hdir] at ih
      exact ih c h
  | case3 low high result cache h1 mid timestamp cache' calls hg hdir hle ih =>
    intro c hc
    rw [boundarySearchM.eq_def, dif_pos h1] at hc
    dsimp only at hc
    rw [hg, hdir] at hc
    dsimp only at hc
    rw [if_neg hle] at hc
    rcases List.mem_append.mp hc with h | h
    · exact getBlockTimestampM_calls w cache (some ((low + high) / 2).toNat) c
        (by rw [hg]; exact h)
    · rw [hdir] at ih
      exact ih c h
  | case4 low high result cache h1 mid timestamp cache' calls hg hdir hle ih =>
    intro c hc
    rw [boundarySearchM.eq_def, dif_pos h1] at hc
    dsimp only at hc
    rw [hg, hdir] at hc
    dsimp only at hc
    rw [if_pos hle] at hc
    rcases List.mem_append.mp hc with h | h
    · exact getBlockTimestampM_calls w cache (some ((low + high) / 2).toNat) c
        (by rw [hg]; exact h)
    · rw [hdir] at ih
      exact ih c h
  | case5 low high result cache h1 mid timestamp cache' calls hg hdir hle ih =>
    intro c hc
    rw [boundarySearchM.eq_def, dif_pos h1] at hc
    dsimp only at hc
    rw [hg, hdir] at hc
    dsimp only at hc
    rw [if_neg hle] at hc
    rcases List.mem_append.mp hc with h | h
    · exact getBlockTimestampM_calls w cache (some ((low + high) / 2).toNat) c
        (by rw [hg]; exact h)
    · rw [hdir] at ih
      exact ih c h
  | case6 low high result cache h1 =>
    intro c hc
    rw [boundarySearchM.eq_def, dif_neg h1] at hc
    simp at hc

theorem boundarySearchM_calls_eq (w : World) (dir : Direction) (target : Int)
    (low high : Int) (result : Nat) (cache : TsCache)
    (res : Option (Nat × TsCache)) (calls : List RpcCall)
    (heq : boundarySearchM w dir target low high result cache = (res, calls)) :
    ∀ c ∈ calls, c.isBlockTimestampCall = true := by
  intro c hc
  have h := boundarySearchM_calls w dir target low high result cache c
  rw [heq] at h
  exact h hc

theorem findBoundaryBlockM_calls (w : World) (latestBlockNumber : Nat)
    (earliestTimestamp latestTimestamp : Int) (target : Option Int)
    (dir : Direction) (cache : TsCache) :
    ∀ c ∈ (findBoundaryBlockM w latestBlockNumber earliestTimestamp latestTimestamp
        target dir cache).2, c.isBlockTimestampCall = true := by
  intro c hc
  unfold findBoundaryBlockM at hc
  repeat' split at hc
  all_goals
    first
    | (simp_all; done)
    | (rename_i heq
       exact boundarySearchM_calls_eq _ _ _ _ _ _ _ _ _ heq c hc)

theorem findBoundaryBlockM_calls_eq (w : World) (latestBlockNumber : Nat)
    (earliestTimestamp latestTimestamp : Int) (target : Option Int)
    (dir : Direction) (cache : TsCache)
    (res : Option (Option Nat × TsCache)) (calls : List RpcCall)
    (heq : findBoundaryBlockM w latestBlockNumber earliestTimestamp latestTimestamp
        target dir cache = (res, calls)) :
    ∀ c ∈ calls, c.isBlockTimestampCall = true := by
  intro c hc
  have h := findBoundaryBlockM_calls w latestBlockNumber earliestTimestamp
    latestTimestamp target dir cache c
  rw [heq] at h
  exact h hc

theorem getBlockTimestampM_calls_eq (w : World) (cache : TsCache) (bn : Option Nat)
    (res : Option (Int × TsCache)) (calls : List RpcCall)
    (heq : getBlockTimestampM w cache bn = (res, calls)) :
    ∀ c ∈ calls, c.isBlockTimestampCall = true := by
  intro c hc
  have h := getBlockTimestampM_calls w cache bn c
  rw [heq] at h
  exact h hc

theorem resolveSetup_calls (w : World) (p : FetchParams) :
    ∀ c ∈ (resolveSetup w p).2, c.isBlockTimestampCall = true := by
  intro c hc
  unfold resolveSetup at hc
  dsimp only at hc
  rcases hg : getBlockTimestampM w
      [(w.latestBlockNumber, (w.blockTs w.latestBlockNumber).getD w.now)] (some 0)
    with ⟨o1, calls1⟩
  rw [hg] at hc
  cases o1 with
  | none =>
    dsimp only at hc
    rcases List.mem_cons.mp hc with hc | hc
    · subst hc; rfl
    · exact getBlockTimestampM_calls_eq _ _ _ _ _ hg c hc
  | some pr1 =>
    obtain ⟨earliestTs, cache1⟩ := pr1
    dsimp only at hc
    rcases hf : findBoundaryBlockM w w.latestBlockNumber earliestTs
        ((w.blockTs w.latestBlockNumber).getD w.now) p.fromTs Direction.fromDir cache1
      with ⟨o2, calls2⟩
    rw [hf] at hc
    cases o2 with
    | none =>
      dsimp only at hc
      rcases List.mem_cons.mp hc with hc | hc
      · subst hc; rfl
      · rcases List.mem_append.mp hc with hc | hc
        · exact getBlockTimestampM_calls_eq _ _ _ _ _ hg c hc
        · exact findBoundaryBlockM_calls_eq _ _ _ _ _ _ _ _ _ hf c hc
    | some pr2 =>
      obtain ⟨fromBlock, cache2⟩ := pr2
      dsimp only at hc
      rcases ht : findBoundaryBlockM w w.latestBlockNumber earliestTs
          ((w.blockTs w.latestBlockNumber).getD w.now) p.toTs Direction.toDir cache2
        with ⟨o3, calls3⟩
      rw [ht] at hc
      cases o3 with
      | none =>
        dsimp only at hc
        rcases List.mem_cons.mp hc with hc | hc
        · subst hc; rfl
        · rcases List.mem_append.mp hc with hc | hc
          · rcases List.mem_append.mp hc with hc | hc
            · exact getBlockTimestampM_calls_eq _ _ _ _ _ hg c hc
            · exact findBoundaryBlockM_calls_eq _ _ _ _ _ _ _ _ _ hf c hc
          · exact findBoundaryBlockM_calls_eq _ _ _ _ _ _ _ _ _ ht c hc
      | some pr3 =>
        obtain ⟨toBlock, cache3⟩ := pr3
        dsimp only at hc
        rcases List.mem_cons.mp hc with hc | hc
        · subst hc; rfl
        · rcases List.mem_append.mp hc with hc | hc
          · rcases List.mem_append.mp hc with hc | hc
            · exact getBlockTimestampM_calls_eq _ _ _ _ _ hg c hc
            · exact findBoundaryBlockM_calls_eq _ _ _ _ _ _ _ _ _ hf c hc
          · exact findBoundaryBlockM_calls_eq _ _ _ _ _ _ _ _ _ ht c hc

/-- C5: when the requested time range yields no blocks — a set bound
resolved to no boundary height (it falls outside the available block
history), or the resolved `from` height exceeds the `to` height —
`fetchInteractions` returns `{rows: [], totalEstimated: 0}` having made
only block-timestamp lookups: no event pages, receipts, blocks or traces
are fetched. -/
theorem emptyRange_shortCircuits (w : World) (p : FetchParams) (s : Setup)
    (calls : List RpcCall) (hs : resolveSetup w p = (some s, calls))
    (hempty : (p.fromTs.isSome = true ∧ s.fromBlock = none) ∨
      (p.toTs.isSome = true ∧ s.toBlock = none) ∨
      (∃ fb tb, s.fromBlock = some fb ∧ s.toBlock = some tb ∧ tb < fb))
    (budget : Nat) :
    fetchInteractionsM w p budget =
      (some ({ rows := [], totalEstimated := 0, hasMore := none }, false), calls) ∧
    ∀ c ∈ calls, c.isBlockTimestampCall = true := by
  constructor
  · unfold fetchInteractionsM
    rw [hs]
    dsimp only
    by_cases h1 : ((p.fromTs.isSome && s.fromBlock.isNone) ||
        (p.toTs.isSome && s.toBlock.isNone)) = true
    · rw [if_pos h1]
    · rw [if_neg h1]
      have h2 : (match s.fromBlock, s.toBlock with
                 | some fb, some tb => decide (tb < fb)
                 | _, _ => false) = true := by
        rcases hempty with ⟨ha, hb⟩ | ⟨ha, hb⟩ | ⟨fb, tb, hfb, htb, hlt⟩
        · exact absurd (by simp [ha, hb]) h1
        · exact absurd (by simp [ha, hb]) h1
        · rw [hfb, htb]
          simpa using hlt
      rw [if_pos h2]
  · intro c hc
    have h := resolveSetup_calls w p c
    rw [hs] at h
    exact h hc

/-- The world of the empty-range scenario: a single block at timestamp
1000, with a `from` bound later than the latest known timestamp. -/
def emptyRangeWorld : World :=
  { now := 99999
    latestBlockNumber := 0
    blockTs := fun n => if n = 0 then some 1000 else none
    eventPages := [[{ transaction_hash := some HASH_1, block_number := some 0 }]]
    receipts := fun _ => none
    txByHash := fun _ => TxLookup.throws
    blocksWithTxs := fun _ => none
    traces := fun _ => TraceLookup.throws
    decodeShort := fun s => some s }

/-- Parameters requesting a time range entirely after the chain's history. -/
def emptyRangeParams : FetchParams :=
  { address := "0xCAFE", network := Network.mainnet, fromTs := some 2000,
    page := 1, pageSize := 10, filters := {} }

/-- The setup the empty-range scenario resolves to. -/
def emptyRangeSetup : Setup :=
  { latestTs := 1000, earliestTs := 1000, fromBlock := none, toBlock := some 0,
    cache := [(0, 1000)] }

unseal boundarySearchM in
/-- Witness for C5 at the concrete empty-range scenario. -/
theorem emptyRange_shortCircuits_witness :
    (resolveSetup emptyRangeWorld emptyRangeParams =
        (some emptyRangeSetup, [RpcCall.blockWithTxHashes none]) ∧
     (emptyRangeParams.fromTs.isSome = true ∧ emptyRangeSetup.fromBlock = none)) ∧
    (fetchInteractionsM emptyRangeWorld emptyRangeParams 200 =
      (some ({ rows := [], totalEstimated := 0, hasMore := none }, false),
       [RpcCall.blockWithTxHashes none]) ∧
     ∀ c ∈ [RpcCall.blockWithTxHashes none], c.isBlockTimestampCall = true) :=
  ⟨⟨by decide, by decide⟩,
   emptyRange_shortCircuits emptyRangeWorld emptyRangeParams emptyRangeSetup
     [RpcCall.blockWithTxHashes none] (by decide)
     (Or.inl ⟨by decide, by decide⟩) 200⟩

/-- The accumulation invariant: the seen set holds exactly the hashes of
the accumulated rows, and those hashes are pairwise distinct. -/
def ScanInv (s : ScanState) : Prop :=
  (∀ h : String, h ∈ s.seenTx ↔ h ∈ s.allRows.map TxRow.txHash) ∧
  (s.allRows.map TxRow.txHash).Nodup

theorem ScanInv_init : ScanInv initScanState := by
  constructor
  · intro h
    simp [initScanState]
  · simp [initScanState]

theorem ScanInv_addRow (p : FetchParams) (limit : Nat) (s : ScanState) (row : TxRow)
    (hinv : ScanInv s) : ScanInv (addRow p limit s row).1 := by
  obtain ⟨hiff, hnd⟩ := hinv
  rcases addRow_cases p limit s row with ⟨_, heq⟩ | ⟨hc, hseen, hrows, _⟩
  · rw [heq]
    exact ⟨hiff, hnd⟩
  · have hnotin : row.txHash ∉ s.allRows.map TxRow.txHash := by
      intro hmem
      have : row.txHash ∈ s.seenTx := (hiff row.txHash).mpr hmem
      simp_all
    constructor
    · intro h
      rw [hseen, hrows]
      simp only [List.mem_cons, List.map_append, List.mem_append, List.map_cons,
        List.map_nil, List.mem_singleton]
      rw [hiff h]
      tauto
    · rw [hrows]
      simp only [List.map_append, List.map_cons, List.map_nil]
      rw [List.nodup_append]
      refine ⟨hnd, by simp, ?_⟩
      intro a ha
      simp only [List.mem_cons, List.not_mem_nil, or_false]
      intro heq2
      exact hnotin (heq2 ▸ ha)

theorem ScanInv_processEvent (w : World) (p : FetchParams) (addrLower : String)
    (limit : Nat) (st : EvState) (ev : EventObj) (hinv : ScanInv st.scan) :
    ScanInv (processEvent w p addrLower limit st ev).1.scan := by
  unfold processEvent
  split
  · exact hinv
  · split
    · exact hinv
    · split
      · exact hinv
      · split
        · exact hinv
        · exact ScanInv_addRow p limit st.scan _ hinv

theorem ScanInv_processEvents (w : World) (p : FetchParams) (addrLower : String)
    (limit : Nat) :
    ∀ (evs : List EventObj) (st : EvState), ScanInv st.scan →
      ScanInv (processEvents w p addrLower limit st evs).1.scan := by
  intro evs
  induction evs with
  | nil => intro st hinv; exact hinv
  | cons ev rest ih =>
    intro st hinv
    exact ih _ (ScanInv_processEvent w p addrLower limit st ev hinv)

theorem ScanInv_eventLoop (w : World) (p : FetchParams) (addrLower : String)
    (limit : Nat) :
    ∀ (k : Nat) (st : EvState), ScanInv st.scan →
      ScanInv (eventLoop w p addrLower limit k st).1.scan := by
  intro k st
  induction k, st using eventLoop.induct w p addrLower limit with
  | case1 k st page hlt pr hbrk =>
    intro hinv
    rw [eventLoop.eq_def, dif_pos hlt]
    dsimp only
    rw [if_pos hbrk]
    exact ScanInv_processEvents w p addrLower limit _ st hinv
  | case2 k st page hlt pr hbrk ih =>
    intro hinv
    rw [eventLoop.eq_def, dif_pos hlt]
    dsimp only
    rw [if_neg hbrk]
    exact ih (ScanInv_processEvents w p addrLower limit _ st hinv)
  | case3 k st hlt =>
    intro hinv
    rw [eventLoop.eq_def, dif_neg hlt]
    exact ScanInv_processEvents w p addrLower limit _ st hinv

theorem ScanInv_traceTxLoop (w : World) (p : FetchParams) (addrLower : String)
    (limit : Nat) (bn : Nat) :
    ∀ (txs : List TxSummary) (st : TrState), ScanInv st.scan →
      ScanInv (traceTxLoop w p addrLower limit bn txs st).1.scan := by
  intro txs
  induction txs with
  | nil => intro st hinv; exact hinv
  | cons tx rest ih =>
    intro st hinv
    unfold traceTxLoop
    split
    · exact hinv
    · split
      · exact hinv
      · split
        · exact ih st hinv
        · split
          · exact ih _ hinv
          · exact ih _ (ScanInv_addRow p limit st.scan _ hinv)

theorem ScanInv_traceBlocksLoop (w : World) (p : FetchParams) (addrLower : String)
    (limit : Nat) (start : Nat) :
    ∀ (count : Nat) (bn : Nat) (st : TrState), ScanInv st.scan →
      ScanInv (traceBlocksLoop w p addrLower limit start count bn st).1.scan := by
  intro count
  induction count with
  | zero => intro bn st hinv; exact hinv
  | succ m ih =>
    intro bn st hinv
    unfold traceBlocksLoop
    split
    · exact hinv
    · split
      · exact hinv
      · split
        · exact ih _ st hinv
        · dsimp only
          split
          · exact ih _ _ hinv
          · split
            · exact ScanInv_traceTxLoop w p addrLower limit _ _ _ hinv
            · exact ih _ _ (ScanInv_traceTxLoop w p addrLower limit _ _ _ hinv)

theorem pagedRows_nodup (p : FetchParams) (acc : List TxRow)
    (h : (acc.map TxRow.txHash).Nodup) : ((pagedRows p acc).map TxRow.txHash).Nodup := by
  have h1 : (finalFilteredRows p acc).Sublist acc := List.filter_sublist _
  have h2 : ((finalFilteredRows p acc).map TxRow.txHash).Nodup :=
    (h1.map TxRow.txHash).nodup h
  have h3 : ((sortByTimestampDesc (finalFilteredRows p acc)).map TxRow.txHash).Nodup :=
    (((sortByTimestampDesc_perm (finalFilteredRows p acc)).map TxRow.txHash).nodup_iff).mpr h2
  have h4 : (pagedRows p acc).Sublist (sortByTimestampDesc (finalFilteredRows p acc)) := by
    unfold pagedRows
    exact (List.take_sublist _ _).trans (List.drop_sublist _ _)
  exact (h4.map TxRow.txHash).nodup h3

theorem runAccumulatedRows_nodup (w : World) (p : FetchParams) (budget : Nat) :
    ((runAccumulatedRows w p budget).map TxRow.txHash).Nodup := by
  unfold runAccumulatedRows
  split
  · simp
  · split
    · simp
    · split
      · simp
      · dsimp only
        exact (ScanInv_traceBlocksLoop w p (toLowerStr p.address) (p.page * p.pageSize)
          _ _ _ _ (ScanInv_eventLoop w p (toLowerStr p.address) (p.page * p.pageSize) 0
            { scan := initScanState, cache := _, brk := false } ScanInv_init)).2

/-- C1: deduplication is first-write-wins — adding a row whose hash is
already seen leaves the state unchanged and reports the row rejected,
while a successful add records the hash as seen (so the first scanner to
reach a hash owns it) — and in every completed discovery run the
transaction hashes of the accumulated rows, and hence of the returned
page, are pairwise distinct. -/
theorem dedup_first_write_wins :
    (∀ (p : FetchParams) (limit : Nat) (s : ScanState) (row : TxRow),
       s.seenTx.contains row.txHash = true → addRow p limit s row = (s, false)) ∧
    (∀ (p : FetchParams) (limit : Nat) (s : ScanState) (row : TxRow),
       (addRow p limit s row).1.seenTx.contains row.txHash = true) ∧
    (∀ (w : World) (p : FetchParams) (budget : Nat),
       ((runAccumulatedRows w p budget).map TxRow.txHash).Nodup) ∧
    (∀ (w : World) (p : FetchParams) (budget : Nat) (res : FetchResult)
       (warned : Bool) (calls : List RpcCall),
       fetchInteractionsM w p budget = (some (res, warned), calls) →
       (res.rows.map TxRow.txHash).Nodup) := by
  refine ⟨?_, ?_, runAccumulatedRows_nodup, ?_⟩
  · intro p limit s row hc
    unfold addRow
    rw [if_pos hc]
  · intro p limit s row
    rcases addRow_cases p limit s row with ⟨hc, heq⟩ | ⟨_, hseen, _, _⟩
    · rw [heq]
      exact hc
    · rw [hseen]
      simp
  · intro w p budget res warned calls h
    obtain ⟨hrows, _⟩ := fetch_result_assembly w p budget res warned calls h
    rw [hrows]
    exact pagedRows_nodup p _ (runAccumulatedRows_nodup w p budget)

/-- Witness for C1 at a concrete seen hash. -/
theorem dedup_first_write_wins_witness :
    (({ allRows := [eventScanRow], seenTx := ["0x1"], matchingRowCount := 1,
        reachedLimit := false } : ScanState).seenTx.contains eventScanRow.txHash = true) ∧
    (addRow simpleParams 10
      { allRows := [eventScanRow], seenTx := ["0x1"], matchingRowCount := 1,
        reachedLimit := false } eventScanRow =
      ({ allRows := [eventScanRow], seenTx := ["0x1"], matchingRowCount := 1,
         reachedLimit := false }, false)) :=
  ⟨by decide,
   dedup_first_write_wins.1 simpleParams 10
     { allRows := [eventScanRow], seenTx := ["0x1"], matchingRowCount := 1,
       reachedLimit := false } eventScanRow (by decide)⟩

/-- Parameters with a minimum-fee filter and an ACCEPTED status filter. -/
def filteredParams : FetchParams :=
  { address := "0xCAFE", network := Network.mainnet, page := 1, pageSize := 10,
    filters := { minFee := some 1, status := some (StatusFilter.val TxStatus.ACCEPTED) } }

/-- The result of the filtered event-scan run. -/
def filteredRunResult : FetchResult :=
  { rows := [eventScanRow], totalEstimated := 1, hasMore := some false }

unseal List.merge List.mergeSort eventLoop boundarySearchM in
/-- Witness for C2 at the filtered event-scan run. -/
theorem fetch_rows_satisfy_filters_witness :
    (fetchInteractionsM eventScanWorld filteredParams 200 =
      ((some (filteredRunResult, false)),
       (fetchInteractionsM eventScanWorld filteredParams 200).2) ∧
     eventScanRow ∈ filteredRunResult.rows) ∧
    ((∀ t, filteredParams.filters.type = some (TypeFilter.kind t) → eventScanRow.type = t) ∧
     (∀ m, filteredParams.filters.method = some m → m ≠ EMPTY_STR →
       entrypointOrPlaceholder eventScanRow.entrypoint = m) ∧
     (∀ st, filteredParams.filters.status = some (StatusFilter.val st) →
       eventScanRow.status = st) ∧
     (∀ f, filteredParams.filters.minFee = some f → f ≤ eventScanRow.fee) ∧
     (∀ f, filteredParams.filters.maxFee = some f → eventScanRow.fee ≤ f) ∧
     (∀ t0, filteredParams.fromTs = some t0 → t0 ≤ eventScanRow.timestamp) ∧
     (∀ t1, filteredParams.toTs = some t1 → eventScanRow.timestamp ≤ t1)) :=
  ⟨⟨by decide, by decide⟩,
   fetch_rows_satisfy_filters eventScanWorld filteredParams 200 filteredRunResult false
     (fetchInteractionsM eventScanWorld filteredParams 200).2 eventScanRow
     (by decide) (by decide)⟩

unseal List.merge List.mergeSort eventLoop boundarySearchM in
/-- Witness for C3 at the plain event-scan run. -/
theorem fetch_rows_sorted_and_sliced_witness :
    (fetchInteractionsM eventScanWorld simpleParams 200 =
      ((some ({ rows := [eventScanRow], totalEstimated := 1, hasMore := some false },
              false)),
       (fetchInteractionsM eventScanWorld simpleParams 200).2) ∧
     1 ≤ simpleParams.page) ∧
    (∃ sortedRows : List TxRow,
      sortedRows.Perm (finalFilteredRows simpleParams
        (runAccumulatedRows eventScanWorld simpleParams 200)) ∧
      sortedRows.Pairwise (fun a b => b.timestamp ≤ a.timestamp) ∧
      ({ rows := [eventScanRow], totalEstimated := 1,
         hasMore := some false } : FetchResult).rows =
        (sortedRows.drop ((simpleParams.page - 1) * simpleParams.pageSize)).take
          simpleParams.pageSize ∧
      ({ rows := [eventScanRow], totalEstimated := 1,
         hasMore := some false } : FetchResult).totalEstimated =
        (finalFilteredRows simpleParams
          (runAccumulatedRows eventScanWorld simpleParams 200)).length) :=
  ⟨⟨by decide, by decide⟩,
   fetch_rows_sorted_and_sliced eventScanWorld simpleParams 200
     { rows := [eventScanRow], totalEstimated := 1, hasMore := some false } false
     (fetchInteractionsM eventScanWorld simpleParams 200).2
     (by decide) (by decide)⟩

/-- The literal `'zzz'`, a string `BigInt` cannot parse. -/
def UNPARSABLE_STR : String := "zzz"

/-- Witness for C9 at a concrete unparsable amount. -/
theorem fee_parsing_spec_witness :
    parseBigIntStr UNPARSABLE_STR = none ∧ toFee (some UNPARSABLE_STR) = 0 :=
  ⟨by decide, fee_parsing_spec.2.1 UNPARSABLE_STR (by decide)⟩
